import Mathlib

/-!
Verification development for the snap-plan event time-normalization pipeline.

The TypeScript source works with JavaScript `Date` values (milliseconds since
the Unix epoch) and the platform's `Intl.DateTimeFormat` facility.  Every
quantity the pipeline manipulates is a whole number of minutes (all ISO
strings it builds end in `:00`, and all adjustments are whole minutes), so
instants are embedded as `Int` = minutes since the Unix epoch
(1970-01-01T00:00Z).  The platform's proleptic-Gregorian calendar is embedded
with standard civil-from-days / days-from-civil conversions.  A named IANA
timezone is embedded as its fixed UTC offset in minutes (the spec, section 9,
places DST-transition instants out of scope and treats offsets as constant
within a day).
-/

namespace SnapPlan

/-- Convert a day count (days since 1970-01-01) to a proleptic-Gregorian
civil date (year, month, day).  This embeds the calendar arithmetic the
JavaScript platform performs inside `Date` and `Intl.DateTimeFormat`.  The
400-year era is split into centuries (`k`), 4-year blocks (`b`) and years
(`i`); `doy` is the day of the March-based year and `mp` the March-based
month. -/
def civilFromDays (n : Int) : Int × Int × Int :=
  let z := n + 719468
  let era := z/ 146097
  let doe := z% 146097
  let k := if doe < 36524 then (0 : Int) else if doe < 73048 then 1 else if doe < 109572 then 2 else 3
  let b := (doe - 36524 * k)/ 1461
  let i := if doe - 36524 * k - 1461 * b < 365 then (0 : Int)
           else if doe - 36524 * k - 1461 * b < 730 then 1
           else if doe - 36524 * k - 1461 * b < 1095 then 2 else 3
  let yoe := 100 * k + 4 * b + i
  let doy := doe - 36524 * k - 1461 * b - 365 * i
  let mp := (5 * doy + 2)/ 153
  let d := doy - (153 * mp + 2)/ 5 + 1
  let m := if mp < 10 then mp + 3 else mp - 9
  (if m ≤ 2 then yoe + era * 400 + 1 else yoe + era * 400, m, d)

/-- Convert a proleptic-Gregorian civil date to a day count (days since
1970-01-01); the inverse direction of `civilFromDays`. -/
def daysFromCivil (y m d : Int) : Int :=
  let y' := if m ≤ 2 then y - 1 else y
  let era := y'/ 400
  let yoe := y' - era * 400
  let mp := if m > 2 then m - 3 else m + 9
  let doy := (153 * mp + 2)/ 5 + d - 1
  let doe := 365 * yoe + yoe/ 4 - yoe/ 100 + doy
  era * 146097 + doe - 719468

/-- Wall-clock components as read back by the platform formatter
(`Intl.DateTimeFormat` with `hour12: false`, numeric fields); the source
always reads seconds `:00`, so seconds are omitted at the minute granularity
of the embedding. -/
structure DateComponents where
  year : Int
  month : Int
  day : Int
  hours : Int
  minutes : Int
deriving DecidableEq, Repr

/-- Split an instant (minutes since epoch, UTC) into calendar components. -/
def minutesToComponents (t : Int) : DateComponents :=
  let days := t / 1440
  let tod := t % 1440
  let c := civilFromDays days
  ⟨c.1, c.2.1, c.2.2, tod / 60, tod % 60⟩

/-- Embeds `getDateComponentsInTimezone` from `src/src/lib/dateUtils.ts`:
format an instant in a timezone (given by its UTC offset in minutes) and read
back year, month, day, hours, minutes. -/
def getDateComponentsInTimezone (t off : Int) : DateComponents :=
  minutesToComponents (t + off)

/-- Embeds `createDateFromTimezone` from `src/src/lib/dateUtils.ts`: the
date/time strings are embedded as already-split numeric components
`y-mo-d h:mi` (the source splits the strings in the same way).  The candidate
instant `testDate` is the literal components read as UTC; the source then
formats the candidate in the target timezone and shifts by the hour, minute
and day-of-month differences.  Note the source compares only day-of-month
(`day - tzDay`), with the year and month differences left commented out. -/
def createDateFromTimezone (y mo d h mi off : Int) : Int :=
  let testDate := daysFromCivil y mo d * 1440 + h * 60 + mi
  let p := getDateComponentsInTimezone testDate off
  let hourDiff := h - p.hours
  let minuteDiff := mi - p.minutes
  let dayDiff := d - p.day
  testDate + ((hourDiff + dayDiff * 24) * 60 + minuteDiff)

/-- A (year, month, day) triple is a valid civil date exactly when converting
it to a day count and back reproduces it. -/
def validCivil (y m d : Int) : Prop := civilFromDays (daysFromCivil y m d) = (y, m, d)

instance (y m d : Int) : Decidable (validCivil y m d) := by
  unfold validCivil; infer_instance

/-! ### ISO-8601 strings

`Date.prototype.toISOString` and ISO parsing by `new Date(...)`, at the
minute granularity of the embedding. -/

/-- The character for a decimal digit 0–9. -/
def digitChar (n : Int) : Char :=
  if n = 0 then '0' else if n = 1 then '1' else if n = 2 then '2' else if n = 3 then '3'
  else if n = 4 then '4' else if n = 5 then '5' else if n = 6 then '6' else if n = 7 then '7'
  else if n = 8 then '8' else '9'

/-- The numeric value of a decimal digit character. -/
def digitVal (c : Char) : Int := (c.toNat : Int) - 48

/-- Two-digit zero-padded decimal (as in the template literals of the
source and in `toISOString`). -/
def pad2 (n : Int) : List Char := [digitChar (n / 10), digitChar (n % 10)]

/-- Four-digit zero-padded decimal year. -/
def pad4 (n : Int) : List Char :=
  [digitChar (n / 1000), digitChar (n / 100 % 10), digitChar (n / 10 % 10), digitChar (n % 10)]

/-- Character list of `Date.prototype.toISOString()` output
(`YYYY-MM-DDTHH:mm:ss.sssZ`); seconds and milliseconds are always zero at
the minute granularity of the embedding. -/
def toISOChars (t : Int) : List Char :=
  let c := minutesToComponents t
  pad4 c.year ++ '-' :: (pad2 c.month ++ '-' :: (pad2 c.day ++ 'T' :: (pad2 c.hours ++
    ':' :: (pad2 c.minutes ++ [':', '0', '0', '.', '0', '0', '0', 'Z']))))

/-- Embeds `Date.prototype.toISOString()`. -/
def toISOString (t : Int) : String := String.mk (toISOChars t)

/-- Read exactly two decimal digits. -/
def read2 : List Char → Option (Int × List Char)
  | c1 :: c2 :: rest =>
    if c1.isDigit && c2.isDigit then some (10 * digitVal c1 + digitVal c2, rest) else none
  | _ => none

/-- Read exactly four decimal digits. -/
def read4 : List Char → Option (Int × List Char)
  | c1 :: c2 :: c3 :: c4 :: rest =>
    if c1.isDigit && c2.isDigit && c3.isDigit && c4.isDigit then
      some (1000 * digitVal c1 + 100 * digitVal c2 + 10 * digitVal c3 + digitVal c4, rest)
    else none
  | _ => none

/-- Expect one specific character. -/
def expectChar (c : Char) : List Char → Option (List Char)
  | x :: rest => if x = c then some rest else none
  | [] => none

/-- Optional `:ss` and `.sss` parts of an ISO time. -/
def readSecondsMs : List Char → Option (List Char)
  | ':' :: rest =>
    match read2 rest with
    | some (_, r2) =>
      match r2 with
      | '.' :: d1 :: d2 :: d3 :: r3 =>
        if d1.isDigit && d2.isDigit && d3.isDigit then some r3 else none
      | r2' => some r2'
    | none => none
  | cs => some cs

/-- Embeds `new Date(string)` on ISO-8601 UTC strings
(`YYYY-MM-DDTHH:mm(:ss(.sss)?)?Z`), at minute granularity (seconds are
dropped, as the source's own conversion regex also only consumes hours and
minutes).  Strings of any other shape give `none`, embedding an invalid
`Date`; shapes JavaScript would read as local time (no trailing `Z`) never
reach the parser in the flows proved about. -/
def jsDateParse (s : String) : Option Int :=
  match read4 s.data with
  | none => none
  | some (y, cs1) =>
    match expectChar '-' cs1 with
    | none => none
    | some cs2 =>
      match read2 cs2 with
      | none => none
      | some (mo, cs3) =>
        match expectChar '-' cs3 with
        | none => none
        | some cs4 =>
          match read2 cs4 with
          | none => none
          | some (d, cs5) =>
            match expectChar 'T' cs5 with
            | none => none
            | some cs6 =>
              match read2 cs6 with
              | none => none
              | some (h, cs7) =>
                match expectChar ':' cs7 with
                | none => none
                | some cs8 =>
                  match read2 cs8 with
                  | none => none
                  | some (mi, cs9) =>
                    match readSecondsMs cs9 with
                    | none => none
                    | some cs10 =>
                      match cs10 with
                      | ['Z'] => some (daysFromCivil y mo d * 1440 + h * 60 + mi)
                      | _ => none

/-- Years representable by `toISOString`'s four-digit field. -/
def isoYearInRange (t : Int) : Prop :=
    0 ≤ (minutesToComponents t).year ∧ (minutesToComponents t).year ≤ 9999

instance (t : Int) : Decidable (isoYearInRange t) := by
  unfold isoYearInRange; infer_instance

/-! ### Text scanning

The source extracts times, all-day phrases and years from the raw text with
JavaScript regular expressions.  Every pattern used is a straight-line
sequence of character classes, so each is embedded as a token-list matcher
with JavaScript semantics: leftmost match position wins, `\s*` is greedy (no
following token can consume whitespace, so maximal munch is exact), and
`\d{1,2}` is greedy with backtracking (two digits first, then one). -/

/-- JavaScript `\s` restricted to the ASCII range. -/
def isJsWs (c : Char) : Bool :=
  c = ' ' || c = '\t' || c = '\n' || c = '\r' || c = '\x0b' || c = '\x0c'

/-- One token of a scanning pattern: whitespace run `\s*`, the range
separator class `[-–—]`, a literal colon, `\d{1,2}` (captured), `\d{2}`
(captured), a case-insensitive literal character, or a captured meridiem
`(am|pm)` (0 for am, 1 for pm). -/
inductive Tok
  | ws | dash | colon | d12 | d2 | litci (c : Char) | per

/-- Match a token sequence at the current position, returning the captured
numbers. -/
def matchToks : List Tok → List Char → Option (List Int)
  | [], _ => some []
  | Tok.ws :: ts, cs => matchToks ts (cs.dropWhile isJsWs)
  | Tok.dash :: ts, c :: cs =>
    if c = '-' ∨ c = '–' ∨ c = '—' then matchToks ts cs else none
  | Tok.dash :: _, [] => none
  | Tok.colon :: ts, c :: cs => if c = ':' then matchToks ts cs else none
  | Tok.colon :: _, [] => none
  | Tok.litci ch :: ts, c :: cs => if c.toLower = ch then matchToks ts cs else none
  | Tok.litci _ :: _, [] => none
  | Tok.d2 :: ts, c1 :: c2 :: cs =>
    if c1.isDigit && c2.isDigit then
      (matchToks ts cs).map (fun g => (10 * digitVal c1 + digitVal c2) :: g)
    else none
  | Tok.d2 :: _, _ => none
  | Tok.d12 :: ts, c1 :: c2 :: cs =>
    if c1.isDigit then
      if c2.isDigit then
        match matchToks ts cs with
        | some g => some ((10 * digitVal c1 + digitVal c2) :: g)
        | none => (matchToks ts (c2 :: cs)).map (fun g => digitVal c1 :: g)
      else (matchToks ts (c2 :: cs)).map (fun g => digitVal c1 :: g)
    else none
  | Tok.d12 :: ts, [c1] =>
    if c1.isDigit then (matchToks ts []).map (fun g => digitVal c1 :: g) else none
  | Tok.d12 :: _, [] => none
  | Tok.per :: ts, c :: c2 :: cs =>
    if c.toLower = 'a' ∨ c.toLower = 'p' then
      if c2.toLower = 'm' then
        (matchToks ts cs).map (fun g => (if c.toLower = 'p' then 1 else 0) :: g)
      else none
    else none
  | Tok.per :: _, _ => none

/-- Find the leftmost position where the token sequence matches. -/
def scanToks (p : List Tok) : List Char → Option (List Int)
  | [] => matchToks p []
  | c :: cs =>
    match matchToks p (c :: cs) with
    | some g => some g
    | none => scanToks p cs

/-- The source's 12-hour to 24-hour conversion for a `pm` hour
(`if (period === 'pm' && hour !== 12) hour += 12`). -/
def pmAdjust (h : Int) : Int := if h = 12 then h else h + 12

/-- The source's 12-hour to 24-hour conversion for an `am` hour
(`if (period === 'am' && hour === 12) hour = 0`). -/
def amAdjust (h : Int) : Int := if h = 12 then 0 else h

/-- Apply a captured meridiem (0 = am, 1 = pm) to an hour. -/
def periodAdjust (per h : Int) : Int := if per = 1 then pmAdjust h else amAdjust h

/-- One entry of the source's `timePatterns` list: the regular expression
(as tokens) and the branch of the extraction loop that converts its captures
to `(startHour, startMinute, endHour, endMinute)`.  `conv` returns `none` on
a capture arity that cannot arise (mirroring the `continue` on a failed
inner re-match). -/
structure TimePattern where
  toks : List Tok
  conv : List Int → Option (Int × Int × Int × Int)

/-- The source's `timePatterns`, in order (`src/unnamed/part_001`,
lines 752–811), paired with the capture conversion the loop body performs
for each (lines 824–925). -/
def timePatterns : List TimePattern :=
  [ ⟨[Tok.d12, Tok.dash, Tok.d12, Tok.ws, Tok.litci 'p', Tok.litci 'm'],
     fun g => match g with
       | [a, b] => some (pmAdjust a, 0, pmAdjust b, 0)
       | _ => none⟩,
    ⟨[Tok.d12, Tok.dash, Tok.d12, Tok.ws, Tok.litci 'a', Tok.litci 'm'],
     fun g => match g with
       | [a, b] => some (amAdjust a, 0, amAdjust b, 0)
       | _ => none⟩,
    ⟨[Tok.d12, Tok.ws, Tok.dash, Tok.ws, Tok.d12, Tok.ws, Tok.litci 'p', Tok.litci 'm'],
     fun g => match g with
       | [a, b] => some (pmAdjust a, 0, pmAdjust b, 0)
       | _ => none⟩,
    ⟨[Tok.d12, Tok.ws, Tok.dash, Tok.ws, Tok.d12, Tok.ws, Tok.litci 'a', Tok.litci 'm'],
     fun g => match g with
       | [a, b] => some (amAdjust a, 0, amAdjust b, 0)
       | _ => none⟩,
    ⟨[Tok.d12, Tok.ws, Tok.litci 'p', Tok.litci 'm', Tok.ws, Tok.dash, Tok.ws,
      Tok.d12, Tok.ws, Tok.litci 'p', Tok.litci 'm'],
     fun g => match g with
       | [a, b] => some (pmAdjust a, 0, pmAdjust b, 0)
       | _ => none⟩,
    ⟨[Tok.d12, Tok.ws, Tok.litci 'a', Tok.litci 'm', Tok.ws, Tok.dash, Tok.ws,
      Tok.d12, Tok.ws, Tok.litci 'a', Tok.litci 'm'],
     fun g => match g with
       | [a, b] => some (amAdjust a, 0, amAdjust b, 0)
       | _ => none⟩,
    ⟨[Tok.d12, Tok.colon, Tok.d2, Tok.ws, Tok.litci 'p', Tok.litci 'm', Tok.ws, Tok.dash,
      Tok.ws, Tok.d12, Tok.colon, Tok.d2, Tok.ws, Tok.litci 'p', Tok.litci 'm'],
     fun g => match g with
       | [a, b, c, d] => some (pmAdjust a, b, pmAdjust c, d)
       | _ => none⟩,
    ⟨[Tok.d12, Tok.colon, Tok.d2, Tok.ws, Tok.litci 'a', Tok.litci 'm', Tok.ws, Tok.dash,
      Tok.ws, Tok.d12, Tok.colon, Tok.d2, Tok.ws, Tok.litci 'a', Tok.litci 'm'],
     fun g => match g with
       | [a, b, c, d] => some (amAdjust a, b, amAdjust c, d)
       | _ => none⟩,
    ⟨[Tok.d12, Tok.colon, Tok.d2, Tok.ws, Tok.dash, Tok.ws, Tok.d12, Tok.colon, Tok.d2,
      Tok.ws, Tok.litci 'p', Tok.litci 'm'],
     fun g => match g with
       | [a, b, c, d] => some (pmAdjust a, b, pmAdjust c, d)
       | _ => none⟩,
    ⟨[Tok.d12, Tok.colon, Tok.d2, Tok.ws, Tok.dash, Tok.ws, Tok.d12, Tok.colon, Tok.d2,
      Tok.ws, Tok.litci 'a', Tok.litci 'm'],
     fun g => match g with
       | [a, b, c, d] => some (amAdjust a, b, amAdjust c, d)
       | _ => none⟩,
    ⟨[Tok.d12, Tok.colon, Tok.d2, Tok.ws, Tok.per, Tok.ws, Tok.dash, Tok.ws,
      Tok.d12, Tok.ws, Tok.per],
     fun g => match g with
       | [a, b, p1, c, p2] => some (periodAdjust p1 a, b, periodAdjust p2 c, 0)
       | _ => none⟩ ]

/-- Run one pattern against a raw text (leftmost match, then capture
conversion). -/
def runPattern (p : TimePattern) (s : String) : Option (Int × Int × Int × Int) :=
  match scanToks p.toks s.data with
  | some g => p.conv g
  | none => none

/-- The time range the extraction loop ends up with: each matching pattern
overwrites the previous one, so the last matching pattern in `timePatterns`
wins. -/
def extractLast (s : String) : Option (Int × Int × Int × Int) :=
  timePatterns.foldl (fun acc p =>
    match runPattern p s with
    | some r => some r
    | none => acc) none

/-- Modelled from the spec: the extraction order the specification describes
in section 4.2 — "first structural match wins; do not continue scanning
after a match".  This definition exists to compare the spec's words against
the source's loop; the source itself is embedded by `extractLast`. -/
def extractFirstSpec (s : String) : Option (Int × Int × Int × Int) :=
  timePatterns.findSome? (fun p => runPattern p s)

/-- Embeds `hasTimeInText` (`/(\d{1,2})\s*(am|pm|AM|PM|:\d{2})/i.test(rawText)`). -/
def hasTimeInText (s : String) : Bool :=
  (scanToks [Tok.d12, Tok.ws, Tok.litci 'a', Tok.litci 'm'] s.data).isSome ||
  (scanToks [Tok.d12, Tok.ws, Tok.litci 'p', Tok.litci 'm'] s.data).isSome ||
  (scanToks [Tok.d12, Tok.ws, Tok.colon, Tok.d2] s.data).isSome

/-- The source's `allDayPatterns` (six case-insensitive phrase patterns). -/
def allDayToks : List (List Tok) :=
  [ [Tok.litci 'a', Tok.litci 'l', Tok.litci 'l', Tok.ws, Tok.litci 'd', Tok.litci 'a',
     Tok.litci 'y'],
    [Tok.litci 'a', Tok.litci 'l', Tok.litci 'l', Tok.litci '-', Tok.litci 'd', Tok.litci 'a',
     Tok.litci 'y'],
    [Tok.litci 'a', Tok.litci 'l', Tok.litci 'l', Tok.ws, Tok.litci 'd', Tok.litci 'a',
     Tok.litci 'y', Tok.ws, Tok.litci 'e', Tok.litci 'v', Tok.litci 'e', Tok.litci 'n',
     Tok.litci 't'],
    [Tok.litci 'f', Tok.litci 'u', Tok.litci 'l', Tok.litci 'l', Tok.ws, Tok.litci 'd',
     Tok.litci 'a', Tok.litci 'y'],
    [Tok.litci 'e', Tok.litci 'n', Tok.litci 't', Tok.litci 'i', Tok.litci 'r', Tok.litci 'e',
     Tok.ws, Tok.litci 'd', Tok.litci 'a', Tok.litci 'y'],
    [Tok.litci 'w', Tok.litci 'h', Tok.litci 'o', Tok.litci 'l', Tok.litci 'e', Tok.ws,
     Tok.litci 'd', Tok.litci 'a', Tok.litci 'y'] ]

/-- Embeds `hasAllDayText` (`allDayPatterns.some(p => p.test(rawText))`). -/
def hasAllDayText (s : String) : Bool :=
  allDayToks.any (fun p => (scanToks p s.data).isSome)

/-- JavaScript `\w`. -/
def isWordChar (c : Char) : Bool := c.isAlphanum || c = '_'

/-- Does `(19|20)\d{2}` match here, with a word boundary after it? -/
def yearAtStart : List Char → Bool
  | c1 :: c2 :: c3 :: c4 :: rest =>
    ((c1 = '1' && c2 = '9') || (c1 = '2' && c2 = '0')) && c3.isDigit && c4.isDigit &&
      (match rest with
       | [] => true
       | c5 :: _ => !(isWordChar c5))
  | _ => false

/-- Scan for a year token; the flag records whether the previous character
was a word character (for the leading `\b`). -/
def hasYearAux : Bool → List Char → Bool
  | _, [] => false
  | prevWord, c :: cs => (!prevWord && yearAtStart (c :: cs)) || hasYearAux (isWordChar c) cs

/-- Embeds the year test `rawText.match(/\b(19|20)\d{2}\b/)` used as a
boolean. -/
def hasYearInText (s : String) : Bool := hasYearAux false s.data

/-- Count leading characters satisfying a predicate. -/
def countWhile (p : Char → Bool) : List Char → Nat
  | [] => 0
  | c :: cs => if p c then countWhile p cs + 1 else 0

/-- The starred group `(?:\s+#[^\n]+)*` followed by `\n\n` of the hashtag
header regex; returns the number of characters consumed.  A failed deeper
match falls back to ending the star here (the backtracking JavaScript would
perform).  The fuel is the remaining length; every iteration consumes at
least two characters. -/
def hashtagTags : Nat → List Char → Option Nat
  | 0, _ => none
  | Nat.succ fuel, cs =>
    let w := countWhile isJsWs cs
    let tryTag : Option Nat :=
      if 1 ≤ w then
        match cs.drop w with
        | '#' :: cs2 =>
          let t := countWhile (fun c => c ≠ '\n') cs2
          if 1 ≤ t then (hashtagTags fuel (cs2.drop t)).map (fun n => w + 1 + t + n)
          else none
        | _ => none
      else none
    match tryTag with
    | some n => some n
    | none =>
      match cs with
      | '\n' :: '\n' :: _ => some 2
      | _ => none

/-- Embeds `description.match(/^(#[^\n]+(?:\s+#[^\n]+)*\n\n)/)`: the length
of the matched hashtag header, if any. -/
def matchHashtagHead (s : String) : Option Nat :=
  match s.data with
  | '#' :: cs =>
    let t := countWhile (fun c => c ≠ '\n') cs
    if 1 ≤ t then (hashtagTags (cs.drop t).length (cs.drop t)).map (fun n => 1 + t + n)
    else none
  | _ => none

/-- The matched hashtag header itself (`hashtagMatch ? hashtagMatch[1] : ''`). -/
def hashtagHeadStr (s : String) : String :=
  match matchHashtagHead s with
  | some n => String.mk (s.data.take n)
  | none => ""

/-- Embeds `description.replace(/^(#[^\n]+(?:\s+#[^\n]+)*\n\n)/, '')`. -/
def stripHashtagHead (s : String) : String :=
  match matchHashtagHead s with
  | some n => String.mk (s.data.drop n)
  | none => s

/-- Substring test on character lists (JavaScript `String.prototype.includes`). -/
def listIncl (needle : List Char) : List Char → Bool
  | [] => needle.isEmpty
  | c :: cs => needle.isPrefixOf (c :: cs) || listIncl needle cs

/-- Embeds `s.includes(sub)`. -/
def strIncludes (s sub : String) : Bool := listIncl sub.data s.data

/-! ### The AI response, events, and the normalization pipeline

Embeds `parseWithAI` (`src/unnamed/part_001`) from the point where the
backend response has been received.  The platform's `JSON.parse` is treated
as a primitive: a response either has no text, fails to produce JSON, or
yields a JSON value `JVal`. -/

/-- A JSON value (the shape-polymorphic object the AI service returns). -/
inductive JVal
  | nul
  | bool (b : Bool)
  | num (n : Int)
  | str (s : String)
  | arr (xs : List JVal)
  | obj (fields : List (String × JVal))

/-- JavaScript truthiness for the values a JSON document can hold. -/
def JVal.truthy : JVal → Bool
  | .nul => false
  | .bool b => b
  | .num n => n != 0
  | .str s => s != ""
  | .arr _ => true
  | .obj _ => true

/-- Property access (`undefined` is `none`; non-objects have no
properties of interest here). -/
def JVal.get? : JVal → String → Option JVal
  | .obj fs, k => fs.lookup k
  | _, _ => none

/-- A property value if it is truthy (one link of an `a.x || a.y` chain). -/
def getTruthy (j : JVal) (k : String) : Option JVal :=
  match j.get? k with
  | some v => if v.truthy then some v else none
  | none => none

/-- First truthy property in a `||` chain of property reads. -/
def firstTruthy (j : JVal) : List String → Option JVal
  | [] => none
  | k :: ks =>
    match getTruthy j k with
    | some v => some v
    | none => firstTruthy j ks

/-- First truthy value in a `||` chain of already-resolved values. -/
def firstTruthyOpt : List (Option JVal) → Option JVal
  | [] => none
  | some v :: rest => if v.truthy then some v else firstTruthyOpt rest
  | none :: rest => firstTruthyOpt rest

/-- JavaScript string coercion, as performed by `'tags\n\n' + description`.
Only the string case is exercised by the flows proved about. -/
def JVal.coerceStr : JVal → String
  | .str s => s
  | .num n => toString n
  | .bool b => if b then "true" else "false"
  | .nul => "null"
  | .arr _ => ""
  | .obj _ => "[object Object]"

/-- Is `typeof v === 'object'` (objects, arrays and `null`)? -/
def JVal.isObjLike : JVal → Bool
  | .obj _ => true
  | .arr _ => true
  | .nul => true
  | _ => false

/-- The normalized event (`ParsedEventSchema`): `title`, `startISO`, `endISO`
required strings, the rest optional. -/
structure ParsedEvent where
  title : String
  description : Option String
  location : Option String
  startISO : String
  endISO : String
  timezone : Option String
  allDay : Option Bool
deriving DecidableEq, Repr

/-- `ParseResult.method` (`'gemini' | 'fallback'`; the spec writes the
success tag as `"ai"`). -/
inductive ParseMethod
  | gemini
  | fallback
deriving DecidableEq, Repr

/-- The normalizer's output envelope `ParseResult` (the `model` field, which
merely echoes configuration, is omitted). -/
structure ParseResult where
  events : List ParsedEvent
  method : ParseMethod
  reason : Option String
  extractedText : Option String
deriving DecidableEq, Repr

/-- Embeds `fallbackHeuristic`: one placeholder event titled from the first
line of the input (truncated to 60 characters, `'Untitled Event'` when
empty), described by the first 500 characters, starting one hour from `now`
and ending one hour later. -/
def fallbackHeuristic (text : String) (now : Int) : List ParsedEvent :=
  let start := now + 60
  let stop := start + 60
  let firstLine := String.mk (text.data.takeWhile (fun c => c ≠ '\n'))
  let title0 := String.mk (firstLine.data.take 60)
  [ { title := if title0 = "" then "Untitled Event" else title0,
      description := some (String.mk (text.data.take 500)),
      location := none,
      startISO := toISOString start,
      endISO := toISOString stop,
      timezone := none,
      allDay := none } ]

/-- The platform timezone database restricted to the zones the flows
exercise, as fixed standard UTC offsets in minutes (spec section 9 places
DST transitions out of scope).  An unrecognized name makes
`Intl.DateTimeFormat` throw, embedded as `none`. -/
def tzOffset (tz : String) : Option Int :=
  if tz = "America/New_York" then some (-300)
  else if tz = "UTC" then some 0
  else if tz = "America/Los_Angeles" then some (-480)
  else if tz = "America/Chicago" then some (-360)
  else none

/-- Embeds the test `startISO.match(/[+-]\d{2}:\d{2}$/)`. -/
def endsWithOffset (s : String) : Bool :=
  match s.data.reverse with
  | m2 :: m1 :: ':' :: h2 :: h1 :: sign :: _ =>
    (sign = '+' || sign = '-') && h1.isDigit && h2.isDigit && m1.isDigit && m2.isDigit
  | _ => false

/-- Does `(\d{4})-(\d{2})-(\d{2})T(\d{2}):(\d{2})(?::(\d{2}))?` match at this
position?  Only groups 1–5 are used by the source. -/
def matchISOAt : List Char → Option (Int × Int × Int × Int × Int)
  | y1 :: y2 :: y3 :: y4 :: '-' :: m1 :: m2 :: '-' :: d1 :: d2 :: 'T' :: h1 :: h2 :: ':' ::
      n1 :: n2 :: _ =>
    if y1.isDigit && y2.isDigit && y3.isDigit && y4.isDigit && m1.isDigit && m2.isDigit &&
        d1.isDigit && d2.isDigit && h1.isDigit && h2.isDigit && n1.isDigit && n2.isDigit then
      some (1000 * digitVal y1 + 100 * digitVal y2 + 10 * digitVal y3 + digitVal y4,
        10 * digitVal m1 + digitVal m2, 10 * digitVal d1 + digitVal d2,
        10 * digitVal h1 + digitVal h2, 10 * digitVal n1 + digitVal n2)
    else none
  | _ => none

/-- Leftmost match of the date-time regex (`startISOToConvert.match(...)`). -/
def findISO : List Char → Option (Int × Int × Int × Int × Int)
  | [] => none
  | c :: cs =>
    match matchISOAt (c :: cs) with
    | some r => some r
    | none => findISO cs

/-- The catch-path `const d = new Date(startISO); if (!isNaN(d.getTime()))
startISO = d.toISOString();` — reprint when parseable, keep otherwise. -/
def jsReparse (s : String) : Option JVal :=
  match jsDateParse s with
  | some t => some (JVal.str (toISOString t))
  | none => some (JVal.str s)

/-- Embeds `str.endsWith('Z')` (a one-character suffix test). -/
def strEndsWith (s : String) (c : Char) : Bool :=
  match s.data.getLast? with
  | some c2 => c2 = c
  | none => false

/-- Embeds `str.replace(/Z$/, '')` on a string known to end in `Z` (and,
generally, removal of the last character; on the empty string it is the
identity, like the regex replacement). -/
def dropLastChar (s : String) : String := String.mk (s.data.dropLast)

/-- Embeds the timestamp conversion the normalizer performs on the resolved
`startISO` (and, with identical logic, on `endISO`), lines 398–486 of
`src/unnamed/part_001`: strip a trailing `Z` only when the assumed source
timezone is exactly `America/New_York`; when the remaining string carries
neither a `Z` nor a numeric offset, re-interpret its date-time digits as
wall-clock time in the source timezone via `createDateFromTimezone`.  The
source timezone is always truthy (it was defaulted), so the source's first
branch applies and its `else if` twin (lines 433–486) is unreachable.
Non-string values pass through; the real code would throw on them into the
outer fallback, and they are dropped by validation here, reaching the same
fallback outcome. -/
def convertStamp (vOpt : Option JVal) (sourceTz : JVal) : Option JVal :=
  match vOpt with
  | some (JVal.str s) =>
    let isNY := match sourceTz with
      | JVal.str t => t = "America/New_York"
      | _ => false
    let sConv := if isNY && strEndsWith s 'Z' then dropLastChar s else s
    if !strEndsWith sConv 'Z' && !endsWithOffset sConv then
      match findISO sConv.data with
      | some (y, mo, d, h, mi) =>
        match sourceTz with
        | JVal.str tzs =>
          match tzOffset tzs with
          | some off => some (JVal.str (toISOString (createDateFromTimezone y mo d h mi off)))
          | none => jsReparse s
        | _ => jsReparse s
      | none => jsReparse s
    else some (JVal.str s)
  | v => v

/-- The resolved `rawText` (`json?.rawText || extractedText`). -/
def resolvedRawText (j : JVal) (extractedText : Option String) : Option JVal :=
  match getTruthy j ("rawText") with
  | some v => some v
  | none => extractedText.map JVal.str

/-- A truthy string, as required of `startISO`/`endISO` by the truthiness
check of line 609 combined with the schema's string check (a non-string
truthy value fails the schema instead; either way the event is dropped). -/
def asValidStr : Option JVal → Option String
  | some (JVal.str s) => if s = "" then none else some s
  | _ => none

/-- The schema validation of the normalized item (lines 608–621): the event
is kept only when the required fields are present with the right types; the
`timezone` field is always the constant `targetTimezone`. -/
def mkValidated (ss es t dd ll : Option String) (ad : Option (Option Bool)) :
    Option ParsedEvent :=
  match ss, es, t, dd, ll, ad with
  | some ss, some es, some t, some dd, some ll, some ad =>
    some { title := t, description := some dd, location := some ll, startISO := ss,
           endISO := es, timezone := some ("America/New_York"), allDay := ad }
  | _, _, _, _, _, _ => none

/-- Embeds the per-item normalization (lines 370–621): duck-typed field
resolution, the timestamp conversion, hashtag construction, and the schema
validation; `none` when the event is dropped.  The nested
`item.start.dateTime` fallback (lines 379–383) is unreachable — it requires
`item.start` to be both falsy and truthy — and is therefore not repeated
here. -/
def normalizeItem (item : JVal) (rawTextV : Option JVal) : Option ParsedEvent :=
  let startV0 := firstTruthy item ["startISO", "start", "startTime", "startDate"]
  let endV0 := firstTruthy item ["endISO", "end", "endTime", "endDate"]
  let sourceTz :=
    match firstTruthy item ["timezone", "tz"] with
    | some v => v
    | none =>
      match (item.get? ("start")).bind (fun st => st.get? ("timeZone")) with
      | some v => if v.truthy then v else JVal.str ("America/New_York")
      | none => JVal.str ("America/New_York")
  let startV := convertStamp startV0 sourceTz
  let endV := convertStamp endV0 sourceTz
  let descBase := (firstTruthyOpt [rawTextV, item.get? ("description"), item.get? ("detail"),
    item.get? ("details")]).getD (JVal.str (""))
  let hasFreeFood :=
    match item.get? ("hasFreeFood") with
    | some (JVal.bool true) => true
    | some (JVal.str s) => s = "true"
    | _ => false
  let regTags : List String :=
    match item.get? ("registrationNeeded") with
    | some (JVal.bool true) => ["#Registration Needed"]
    | some (JVal.str s) => if s = "true" then ["#Registration Needed"] else []
    | some JVal.nul => ["#Registration Not Mentioned"]
    | none => ["#Registration Not Mentioned"]
    | some _ => []
  let hashtags := (if hasFreeFood then ["#Free Food"] else []) ++ regTags
  let descV : JVal :=
    if hashtags.isEmpty then descBase
    else JVal.str (String.intercalate (" ") hashtags ++ "\n\n" ++ descBase.coerceStr)
  let titleV := (firstTruthy item ["title", "name", "summary"]).getD (JVal.str ("Untitled Event"))
  let locV := (firstTruthy item ["location", "place", "venue"]).getD (JVal.str (""))
  let titleS := match titleV with
    | JVal.str s => some s
    | _ => none
  let descS := match descV with
    | JVal.str s => some s
    | _ => none
  let locS := match locV with
    | JVal.str s => some s
    | _ => none
  let allDayOk : Option (Option Bool) :=
    match item.get? ("allDay") with
    | none => some none
    | some (JVal.bool b) => some (some b)
    | some _ => none
  mkValidated (asValidStr startV) (asValidStr endV) titleS descS locS allDayOk

/-- `updatedEvent.timezone || 'America/New_York'`. -/
def orNY (o : Option String) : String :=
  match o with
  | some s => if s = "" then "America/New_York" else s
  | none => "America/New_York"

/-- Embeds the description/raw-text merge (lines 644–658). -/
def descMergeStep (rawText : String) (ev : ParsedEvent) : ParsedEvent :=
  let needsMerge :=
    match ev.description with
    | none => true
    | some d => if d = "" then true else ¬ strIncludes d rawText
  if needsMerge then
    let hashtags := hashtagHeadStr (ev.description.getD (""))
    let without :=
      match ev.description with
      | none => ""
      | some d => stripHashtagHead d
    { ev with description := some (hashtags ++ (if without = "" then rawText else without)) }
  else ev

/-- Embeds the year-defaulting pass (lines 663–708): read the start's
wall-clock components in the event's timezone, rebuild the start with the
current year and those components, and shift the end to preserve the
duration.  An unparsable timestamp or unknown zone would make the real code
throw into the outer fallback; the embedding leaves the event unchanged
there, which only widens the set of events the success path can produce. -/
def yearStep (currentYear : Int) (ev : ParsedEvent) : ParsedEvent :=
  match jsDateParse ev.startISO, jsDateParse ev.endISO with
  | some ts, some te =>
    match tzOffset (orNY ev.timezone) with
    | some off =>
      let c := getDateComponentsInTimezone ts off
      let dur := te - ts
      let ns := createDateFromTimezone currentYear c.month c.day c.hours c.minutes off
      { ev with startISO := toISOString ns, endISO := toISOString (ns + dur) }
    | none => ev
  | _, _ => ev

/-- Embeds the all-day override (lines 726–744): take the UTC calendar day
of the start (`getUTCFullYear`/`getUTCMonth`/`getUTCDate`) and set the event
to 00:00–23:59 of that day in the hard-coded `America/New_York` timezone
(standard offset -300). -/
def allDayStep (ev : ParsedEvent) : ParsedEvent :=
  match jsDateParse ev.startISO with
  | some ts =>
    let c := minutesToComponents ts
    let ns := createDateFromTimezone c.year c.month c.day 0 0 (-300)
    let ne := createDateFromTimezone c.year c.month c.day 23 59 (-300)
    { ev with allDay := some true, startISO := toISOString ns, endISO := toISOString ne }
  | none => ev

/-- The all-day condition of line 724:
`hasAllDayText || (!hasTimeInText && !updatedEvent.allDay)`. -/
def allDayDecision (rawText : String) (evAllDay : Option Bool) : Bool :=
  hasAllDayText rawText || (!hasTimeInText rawText && !(evAllDay.getD false))

/-- Embeds `/^\d{4}-\d{2}-\d{2}/.test(updatedEvent.startISO)`. -/
def startsYMD (s : String) : Bool :=
  match s.data with
  | y1 :: y2 :: y3 :: y4 :: '-' :: m1 :: m2 :: '-' :: d1 :: d2 :: _ =>
    y1.isDigit && y2.isDigit && y3.isDigit && y4.isDigit && m1.isDigit && m2.isDigit &&
      d1.isDigit && d2.isDigit
  | _ => false

/-- One iteration of the extraction loop (lines 813–973) for one pattern:
on a match, rebuild both instants from the pre-loop start date (`t0`, the
`startDate` captured at line 748) and the extracted times, rolling the end
forward one day when it does not land strictly after the start.  The year
comes from the pre-loop start date when the current `startISO` string starts
with `YYYY-MM-DD` (the source's second regex test `/^\d{4}/` is then always
true as well), otherwise the current year.  As in `yearStep`, paths on which
the real code would throw to the outer fallback leave the event unchanged. -/
def applyPattern (currentYear : Int) (t0 : Option Int) (rawText : String) (ev : ParsedEvent)
    (p : TimePattern) : ParsedEvent :=
  match runPattern p rawText with
  | none => ev
  | some (sh, sm, eh, em) =>
    match t0 with
    | none => ev
    | some t =>
      let tz := orNY ev.timezone
      match tzOffset tz with
      | none => ev
      | some off =>
        let c := minutesToComponents t
        let year := if startsYMD ev.startISO then c.year else currentYear
        let ns := createDateFromTimezone year c.month c.day sh sm off
        let ne0 := createDateFromTimezone year c.month c.day eh em off
        let ne := if ne0 ≤ ns then ne0 + 1440 else ne0
        { ev with startISO := toISOString ns, endISO := toISOString ne, timezone := some tz }

/-- The extraction loop: every matching pattern overwrites the event's
times (the source has no `break`). -/
def timeLoop (rawText : String) (currentYear : Int) (ev0 : ParsedEvent) : ParsedEvent :=
  timePatterns.foldl (applyPattern currentYear (jsDateParse ev0.startISO) rawText) ev0

/-- Embeds the whole post-processing pass applied to each validated event
when `rawText` is truthy (lines 639–976): description merge, year
defaulting, all-day override, then the time-range extraction loop. -/
def fixEvent (rawText : String) (currentYear : Int) (event : ParsedEvent) : ParsedEvent :=
  let ev1 := descMergeStep rawText event
  let ev2 := if hasYearInText rawText then ev1 else yearStep currentYear ev1
  let ev3 := if allDayDecision rawText ev2.allDay then allDayStep ev2 else ev2
  timeLoop rawText currentYear ev3

/-- The last step of the `eventItem` resolution: `json` itself is the event
when it is a non-null object carrying a start-like field. -/
def resolveSelfEvent (j : JVal) : Option JVal :=
  let selfLooks := (getTruthy j ("startISO")).isSome || (getTruthy j ("start")).isSome ||
    (getTruthy j ("startTime")).isSome ||
    (match (j.get? ("start")).bind (fun st => st.get? ("dateTime")) with
     | some v => v.truthy
     | none => false)
  let notNul : Bool := match j with
    | JVal.nul => false
    | _ => true
  if j.isObjLike && notNul && selfLooks then some j
  else none

/-- The `events`-field steps of the `eventItem` resolution. -/
def resolveEventsField (j : JVal) : Option JVal :=
  match j.get? ("events") with
  | some (JVal.arr (x :: _)) => some x
  | some v =>
    if v.truthy && v.isObjLike then some v
    else resolveSelfEvent j
  | none => resolveSelfEvent j

/-- Embeds the `eventItem` resolution (lines 352–367). -/
def resolveEventItem (j : JVal) : Option JVal :=
  match j.get? ("event") with
  | some v =>
    if v.truthy && v.isObjLike then some v
    else resolveEventsField j
  | none => resolveEventsField j

/-- The single validated event the AI-success path produces before
post-processing, if any. -/
def aiEvent (j : JVal) (extractedText : Option String) : Option ParsedEvent :=
  match resolveEventItem j with
  | some item => normalizeItem item (resolvedRawText j extractedText)
  | none => none

/-- The outcome of the backend call and JSON recovery, with the platform's
`JSON.parse` (and the code-fence stripping feeding it) treated as a
primitive classifier. -/
inductive GeminiOutcome
  | noText
  | unparsable (snippet : String)
  | json (j : JVal)

/-- Embeds `parseWithAI` from the response onwards: the fallback returns for
a missing text or unrecoverable JSON (lines 316–344), the fallback when no
valid event survives (lines 624–634), and the success return with the
post-processing pass when `rawText` is truthy (lines 636–991).  A truthy
non-string `rawText` makes the real post-processing throw
(`rawText.match is not a function`) into the outer catch; that path is
returned as the same fallback envelope. -/
def processOutcome (o : GeminiOutcome) (extractedText : Option String) (isImage : Bool)
    (now : Int) (currentYear : Int) : ParseResult :=
  let fbText := extractedText.getD (if isImage then "Image input" else "")
  match o with
  | GeminiOutcome.noText =>
    { events := fallbackHeuristic fbText now, method := ParseMethod.fallback,
      reason := some ("No text response from Gemini API"), extractedText := extractedText }
  | GeminiOutcome.unparsable snippet =>
    { events := fallbackHeuristic fbText now, method := ParseMethod.fallback,
      reason := some ("No valid JSON found in Gemini response. Response: " ++ snippet),
      extractedText := extractedText }
  | GeminiOutcome.json j =>
    match aiEvent j extractedText with
    | none =>
      { events := fallbackHeuristic fbText now, method := ParseMethod.fallback,
        reason := some ("No valid event found in Gemini response. Check console for details."),
        extractedText := extractedText }
    | some ev =>
      match resolvedRawText j extractedText with
      | some (JVal.str rt) =>
        if rt = "" then
          { events := [ev], method := ParseMethod.gemini, reason := none,
            extractedText := extractedText }
        else
          { events := [fixEvent rt currentYear ev], method := ParseMethod.gemini,
            reason := none, extractedText := some rt }
      | some _ =>
        { events := fallbackHeuristic fbText now, method := ParseMethod.fallback,
          reason := some ("Error calling Gemini API: rawText.match is not a function"),
          extractedText := extractedText }
      | none =>
        { events := [ev], method := ParseMethod.gemini, reason := none,
          extractedText := extractedText }

/-- Embeds `EventEditModal`'s save path for an edit that types a new title
and touches nothing else: the date and time fields were populated from
`getDateComponentsInTimezone(event.startISO/endISO, displayTimezone)` when
the modal opened, the all-day checkbox from `event.allDay || false`, and
`handleSave` rebuilds both instants with `createDateFromTimezone` in the
display timezone (given here by its offset `off`; the default display
timezone is America/New_York).  `none` embeds the `RangeError` a saved
invalid date would raise. -/
def handleSave (ev : ParsedEvent) (off : Int) (newTitle : String) : Option ParsedEvent :=
  match jsDateParse ev.startISO, jsDateParse ev.endISO with
  | some ts, some te =>
    let sc := getDateComponentsInTimezone ts off
    let ec := getDateComponentsInTimezone te off
    if ev.allDay.getD false then
      some { ev with
        title := newTitle
        allDay := some true
        startISO := toISOString (createDateFromTimezone sc.year sc.month sc.day 0 0 off)
        endISO := toISOString (createDateFromTimezone ec.year ec.month ec.day 23 59 off) }
    else
      some { ev with
        title := newTitle
        allDay := some false
        startISO := toISOString
          (createDateFromTimezone sc.year sc.month sc.day sc.hours sc.minutes off)
        endISO := toISOString
          (createDateFromTimezone ec.year ec.month ec.day ec.hours ec.minutes off) }
  | _, _ => none

/-- The update a successful pattern match performs on the event, given the
pre-loop start instant `t` and a New-York timezone on the event (offset
-300). -/
def overwriteRange (cy t : Int) (r : Int × Int × Int × Int) (ev : ParsedEvent) : ParsedEvent :=
  let c := minutesToComponents t
  let year := if startsYMD ev.startISO then c.year else cy
  let ns := createDateFromTimezone year c.month c.day r.1 r.2.1 (-300)
  let ne0 := createDateFromTimezone year c.month c.day r.2.2.1 r.2.2.2 (-300)
  let ne := if ne0 ≤ ns then ne0 + 1440 else ne0
  { ev with
    startISO := toISOString ns
    endISO := toISOString ne
    timezone := some ("America/New_York") }

/-- A Gemini payload whose event sits under the `event` key; used to
instantiate the C10 invariant on a concrete run. -/
def c10Json : JVal :=
  JVal.obj [("event", JVal.obj [("title", JVal.str ("T")),
    ("startISO", JVal.str ("2025-05-10T15:00:00")),
    ("endISO", JVal.str ("2025-05-10T16:00:00"))])]

/-- Chronological order of two ISO strings, through the embedded parser:
true exactly when both parse and the first instant is strictly earlier. -/
def isoLt (a b : String) : Bool :=
  match jsDateParse a, jsDateParse b with
  | some ta, some tb => decide (ta < tb)
  | _, _ => false

/-- Projection of an optional JSON value to an optional string, to state
string-level facts about `convertStamp` results. -/
def jvalAsStr : Option JVal → Option String
  | some (JVal.str s) => some s
  | _ => none

/-- Outcomes on which no usable event reaches the success path: no text
response, unrecoverable JSON, or a JSON value from which no event survives
resolution and validation. -/
def unusableOutcome (o : GeminiOutcome) (ext : Option String) : Prop :=
  match o with
  | GeminiOutcome.json j => aiEvent j ext = none
  | _ => True

/-- An event whose description offers two time ranges: under first-match
semantics 6pm–9pm (pattern 1) would win; the source's loop keeps 7am–8am
(the last matching pattern). -/
def evC3 : ParsedEvent :=
  { title := "E", description := some ("6-9pm 7am-8am"), location := none,
    startISO := "2025-06-10T05:00:00.000Z", endISO := "2025-06-10T06:00:00.000Z",
    timezone := some ("America/New_York"), allDay := none }

/-- An ordinary timed event used to instantiate the loop characterization. -/
def evC3w : ParsedEvent :=
  { title := "Standup", description := none, location := none,
    startISO := "2025-09-17T22:00:00.000Z", endISO := "2025-09-18T01:00:00.000Z",
    timezone := some ("America/New_York"), allDay := none }

/-- A Gemini payload proposing an end one hour before its start, with a raw
text (`Party details 7:30`) that contains a time-of-day expression but no
extractable time range. -/
def c2Json : JVal :=
  JVal.obj [("title", JVal.str ("Party")), ("startISO", JVal.str ("2025-05-10T15:00:00")),
    ("endISO", JVal.str ("2025-05-10T14:00:00")), ("rawText", JVal.str ("Party details 7:30"))]

/-- A mid-month timed event for instantiating the order invariant. -/
def evC2w : ParsedEvent :=
  { title := "Reading group", description := none, location := none,
    startISO := "2025-09-17T22:00:00.000Z", endISO := "2025-09-18T01:00:00.000Z",
    timezone := some ("America/New_York"), allDay := none }

/-- A Gemini payload for a 2025-03-01 event whose raw text carries the
wrapping range `11:00 PM - 2 AM 2025`. -/
def c5Json : JVal :=
  JVal.obj [("title", JVal.str ("Late show")), ("startISO", JVal.str ("2025-03-01T15:00:00")),
    ("endISO", JVal.str ("2025-03-01T16:00:00")), ("rawText", JVal.str ("11:00 PM - 2 AM 2025"))]

/-- A Gemini payload whose raw text asks for an all-day event and also
contains the range `6pm-9pm`. -/
def c6Json : JVal :=
  JVal.obj [("title", JVal.str ("Fair")), ("startISO", JVal.str ("2025-06-10T15:00:00")),
    ("endISO", JVal.str ("2025-06-10T16:00:00")), ("rawText", JVal.str ("all day 6pm-9pm"))]

/-- A timed event whose raw text will ask for all-day treatment. -/
def evC6w : ParsedEvent :=
  { title := "Picnic", description := some ("d"), location := none,
    startISO := "2025-06-10T20:00:00.000Z", endISO := "2025-06-10T21:00:00.000Z",
    timezone := some ("America/New_York"), allDay := some false }

/-- An edited event on the first of a month: the modal's save path rebuilds
its instants and the month-boundary bug moves them. -/
def evC9 : ParsedEvent :=
  { title := "Original", description := none, location := none,
    startISO := "2025-03-01T05:00:00.000Z", endISO := "2025-03-01T06:00:00.000Z",
    timezone := some ("America/New_York"), allDay := some false }

/-- A mid-month timed event for the title-only save. -/
def evC9w : ParsedEvent :=
  { title := "Seminar", description := some ("d"), location := none,
    startISO := "2025-06-10T22:00:00.000Z", endISO := "2025-06-10T23:30:00.000Z",
    timezone := some ("America/New_York"), allDay := some false }

/-! ### Theorems -/

/-- Core calendar fact: `daysFromCivil` inverts `civilFromDays` on every day
number, and the produced month and day components lie in their calendar
ranges. -/
theorem daysFromCivil_civilFromDays (n : Int) :
    daysFromCivil (civilFromDays n).1 (civilFromDays n).2.1 (civilFromDays n).2.2 = n ∧
    1 ≤ (civilFromDays n).2.1 ∧ (civilFromDays n).2.1 ≤ 12 ∧
    1 ≤ (civilFromDays n).2.2 ∧ (civilFromDays n).2.2 ≤ 31 := by
  have hed := Int.ediv_add_emod (n + 719468) 146097
  have hem0 := Int.emod_nonneg (n + 719468) (by norm_num : (146097 : Int) ≠ 0)
  have hem1 := Int.emod_lt_of_pos (n + 719468) (by norm_num : (0 : Int) < 146097)
  simp only [civilFromDays]
  set era := (n + 719468)/ 146097 with hera
  clear_value era
  set doe := (n + 719468)% 146097 with hdoe
  clear_value doe
  set k := (if doe < 36524 then (0 : Int) else if doe < 73048 then 1 else if doe < 109572 then 2 else 3) with hk
  have hkb : 0 ≤ k ∧ k ≤ 3 ∧ 36524 * k ≤ doe ∧ (k ≤ 2 → doe < 36524 * k + 36524) := by
    rw [hk]; split_ifs <;> omega
  clear_value k
  obtain ⟨hk0, hk1, hk2, hk3⟩ := hkb
  have hbed := Int.ediv_add_emod (doe - 36524 * k) 1461
  have hbem0 := Int.emod_nonneg (doe - 36524 * k) (by norm_num : (1461 : Int) ≠ 0)
  have hbem1 := Int.emod_lt_of_pos (doe - 36524 * k) (by norm_num : (0 : Int) < 1461)
  set b := (doe - 36524 * k)/ 1461 with hb
  clear_value b
  set br := (doe - 36524 * k)% 1461 with hbr
  clear_value br
  set i := (if doe - 36524 * k - 1461 * b < 365 then (0 : Int)
            else if doe - 36524 * k - 1461 * b < 730 then 1
            else if doe - 36524 * k - 1461 * b < 1095 then 2 else 3) with hi
  have hib : 0 ≤ i ∧ i ≤ 3 ∧ 365 * i ≤ doe - 36524 * k - 1461 * b ∧
      (i ≤ 2 → doe - 36524 * k - 1461 * b < 365 * i + 365) := by
    rw [hi]; split_ifs <;> omega
  clear_value i
  obtain ⟨hi0, hi1, hi2, hi3⟩ := hib
  have hmed := Int.ediv_add_emod (5 * (doe - 36524 * k - 1461 * b - 365 * i) + 2) 153
  have hmem0 := Int.emod_nonneg (5 * (doe - 36524 * k - 1461 * b - 365 * i) + 2)
    (by norm_num : (153 : Int) ≠ 0)
  have hmem1 := Int.emod_lt_of_pos (5 * (doe - 36524 * k - 1461 * b - 365 * i) + 2)
    (by norm_num : (0 : Int) < 153)
  set mp := (5 * (doe - 36524 * k - 1461 * b - 365 * i) + 2)/ 153 with hmp
  clear_value mp
  have hqed := Int.ediv_add_emod (153 * mp + 2) 5
  have hqem0 := Int.emod_nonneg (153 * mp + 2) (by norm_num : (5 : Int) ≠ 0)
  have hqem1 := Int.emod_lt_of_pos (153 * mp + 2) (by norm_num : (0 : Int) < 5)
  set q6 := (153 * mp + 2)/ 5 with hq6
  clear_value q6
  have hmp0 : 0 ≤ mp := by omega
  have hmp1 : mp ≤ 11 := by omega
  by_cases hmp10 : mp < 10
  · have hmle : ¬ (mp + 3 ≤ 2) := by omega
    simp only [if_pos hmp10, if_neg hmle]
    refine ⟨?_, by omega, by omega, by omega, by omega⟩
    simp only [daysFromCivil]
    have hmgt : mp + 3 > 2 := by omega
    simp only [if_neg hmle, if_pos hmgt]
    rw [show mp + 3 - 3 = mp from by ring]
    have hyed := Int.ediv_add_emod (100 * k + 4 * b + i + era * 400) 400
    have hyem0 := Int.emod_nonneg (100 * k + 4 * b + i + era * 400)
      (by norm_num : (400 : Int) ≠ 0)
    have hyem1 := Int.emod_lt_of_pos (100 * k + 4 * b + i + era * 400)
      (by norm_num : (0 : Int) < 400)
    set era' := (100 * k + 4 * b + i + era * 400)/ 400 with hera'
    clear_value era'
    have h4ed := Int.ediv_add_emod (100 * k + 4 * b + i + era * 400 - era' * 400) 4
    have h4em0 := Int.emod_nonneg (100 * k + 4 * b + i + era * 400 - era' * 400)
      (by norm_num : (4 : Int) ≠ 0)
    have h4em1 := Int.emod_lt_of_pos (100 * k + 4 * b + i + era * 400 - era' * 400)
      (by norm_num : (0 : Int) < 4)
    set q4 := (100 * k + 4 * b + i + era * 400 - era' * 400)/ 4 with hq4
    clear_value q4
    have h100ed := Int.ediv_add_emod (100 * k + 4 * b + i + era * 400 - era' * 400) 100
    have h100em0 := Int.emod_nonneg (100 * k + 4 * b + i + era * 400 - era' * 400)
      (by norm_num : (100 : Int) ≠ 0)
    have h100em1 := Int.emod_lt_of_pos (100 * k + 4 * b + i + era * 400 - era' * 400)
      (by norm_num : (0 : Int) < 100)
    set q5 := (100 * k + 4 * b + i + era * 400 - era' * 400)/ 100 with hq5
    clear_value q5
    rw [hq6]
    have hble : 0 ≤ b ∧ b ≤ 24 := by omega
    have heraeq : era' = era := by omega
    have hq4eq : q4 = 25 * k + b := by omega
    have hq5eq : q5 = k := by omega
    omega
  · have hmle : mp - 9 ≤ 2 := by omega
    simp only [if_neg hmp10, if_pos hmle]
    refine ⟨?_, by omega, by omega, by omega, by omega⟩
    simp only [daysFromCivil]
    have hmgt : ¬ (mp - 9 > 2) := by omega
    simp only [if_pos hmle, if_neg hmgt]
    rw [show mp - 9 + 9 = mp from by ring]
    rw [show 100 * k + 4 * b + i + era * 400 + 1 - 1 = 100 * k + 4 * b + i + era * 400 from by ring]
    have hyed := Int.ediv_add_emod (100 * k + 4 * b + i + era * 400) 400
    have hyem0 := Int.emod_nonneg (100 * k + 4 * b + i + era * 400)
      (by norm_num : (400 : Int) ≠ 0)
    have hyem1 := Int.emod_lt_of_pos (100 * k + 4 * b + i + era * 400)
      (by norm_num : (0 : Int) < 400)
    set era' := (100 * k + 4 * b + i + era * 400)/ 400 with hera'
    clear_value era'
    have h4ed := Int.ediv_add_emod (100 * k + 4 * b + i + era * 400 - era' * 400) 4
    have h4em0 := Int.emod_nonneg (100 * k + 4 * b + i + era * 400 - era' * 400)
      (by norm_num : (4 : Int) ≠ 0)
    have h4em1 := Int.emod_lt_of_pos (100 * k + 4 * b + i + era * 400 - era' * 400)
      (by norm_num : (0 : Int) < 4)
    set q4 := (100 * k + 4 * b + i + era * 400 - era' * 400)/ 4 with hq4
    clear_value q4
    have h100ed := Int.ediv_add_emod (100 * k + 4 * b + i + era * 400 - era' * 400) 100
    have h100em0 := Int.emod_nonneg (100 * k + 4 * b + i + era * 400 - era' * 400)
      (by norm_num : (100 : Int) ≠ 0)
    have h100em1 := Int.emod_lt_of_pos (100 * k + 4 * b + i + era * 400 - era' * 400)
      (by norm_num : (0 : Int) < 100)
    set q5 := (100 * k + 4 * b + i + era * 400 - era' * 400)/ 100 with hq5
    clear_value q5
    rw [hq6]
    have hble : 0 ≤ b ∧ b ≤ 24 := by omega
    have heraeq : era' = era := by omega
    have hq4eq : q4 = 25 * k + b := by omega
    have hq5eq : q5 = k := by omega
    omega

/-- Shifting the day argument of `daysFromCivil` shifts the day count by the
same amount (the day enters the formula linearly). -/
theorem daysFromCivil_add (y m a b : Int) :
    daysFromCivil y m (a + b) = daysFromCivil y m a + b := by
  simp only [daysFromCivil]
  split_ifs <;> omega

/-- When the candidate instant, formatted in the target timezone, still reads
back the requested year and month (the day-of-month rollover does not cross a
month boundary), `createDateFromTimezone` computes exactly the instant that
is `off` minutes before the literal-UTC reading of the components. -/
theorem createDateFromTimezone_eq_sameMonth (y mo d h mi off : Int)
    (hy : (civilFromDays ((daysFromCivil y mo d * 1440 + h * 60 + mi + off) / 1440)).1 = y)
    (hmo : (civilFromDays ((daysFromCivil y mo d * 1440 + h * 60 + mi + off) / 1440)).2.1 = mo) :
    createDateFromTimezone y mo d h mi off = daysFromCivil y mo d * 1440 + h * 60 + mi - off := by
  have hinv := (daysFromCivil_civilFromDays ((daysFromCivil y mo d * 1440 + h * 60 + mi + off) / 1440)).1
  rw [hy, hmo] at hinv
  have haff := daysFromCivil_add y mo d
    ((civilFromDays ((daysFromCivil y mo d * 1440 + h * 60 + mi + off) / 1440)).2.2 - d)
  rw [show d + ((civilFromDays ((daysFromCivil y mo d * 1440 + h * 60 + mi + off) / 1440)).2.2 - d) =
      (civilFromDays ((daysFromCivil y mo d * 1440 + h * 60 + mi + off) / 1440)).2.2 from by ring] at haff
  have h1 := Int.ediv_add_emod (daysFromCivil y mo d * 1440 + h * 60 + mi + off) 1440
  have h2 := Int.emod_nonneg (daysFromCivil y mo d * 1440 + h * 60 + mi + off)
    (by norm_num : (1440 : Int) ≠ 0)
  have h3 := Int.emod_lt_of_pos (daysFromCivil y mo d * 1440 + h * 60 + mi + off)
    (by norm_num : (0 : Int) < 1440)
  have h4 := Int.ediv_add_emod ((daysFromCivil y mo d * 1440 + h * 60 + mi + off) % 1440) 60
  have h5 := Int.emod_nonneg ((daysFromCivil y mo d * 1440 + h * 60 + mi + off) % 1440)
    (by norm_num : (60 : Int) ≠ 0)
  have h6 := Int.emod_lt_of_pos ((daysFromCivil y mo d * 1440 + h * 60 + mi + off) % 1440)
    (by norm_num : (0 : Int) < 60)
  simp only [createDateFromTimezone, getDateComponentsInTimezone, minutesToComponents]
  omega

/-- Splitting the instant built from valid components reads the components
back exactly. -/
theorem minutesToComponents_compose (y mo d h mi : Int) (hv : validCivil y mo d)
    (hh0 : 0 ≤ h) (hh1 : h ≤ 23) (hm0 : 0 ≤ mi) (hm1 : mi ≤ 59) :
    minutesToComponents (daysFromCivil y mo d * 1440 + (h * 60 + mi)) =
      ⟨y, mo, d, h, mi⟩ := by
  have h1 := Int.ediv_add_emod (daysFromCivil y mo d * 1440 + (h * 60 + mi)) 1440
  have h2 := Int.emod_nonneg (daysFromCivil y mo d * 1440 + (h * 60 + mi))
    (by norm_num : (1440 : Int) ≠ 0)
  have h3 := Int.emod_lt_of_pos (daysFromCivil y mo d * 1440 + (h * 60 + mi))
    (by norm_num : (0 : Int) < 1440)
  have hq : (daysFromCivil y mo d * 1440 + (h * 60 + mi)) / 1440 = daysFromCivil y mo d := by
    omega
  have hr : (daysFromCivil y mo d * 1440 + (h * 60 + mi)) % 1440 = h * 60 + mi := by
    omega
  have h4 := Int.ediv_add_emod (h * 60 + mi) 60
  have h5 := Int.emod_nonneg (h * 60 + mi) (by norm_num : (60 : Int) ≠ 0)
  have h6 := Int.emod_lt_of_pos (h * 60 + mi) (by norm_num : (0 : Int) < 60)
  have hdv : (h * 60 + mi) / 60 = h := by omega
  have hmd : (h * 60 + mi) % 60 = mi := by omega
  simp only [minutesToComponents, hq, hr, hdv, hmd]
  rw [validCivil] at hv
  rw [hv]

/-- Claim C1 (spec section 8, round-trip law) is refuted at the valid triple
2025-03-01 00:00 in a timezone at UTC-05:00 (America/New_York's standard
offset): the day-of-month correction in `createDateFromTimezone` compares
only days of month, so a rollover that crosses a month boundary misfires and
the round-trip lands on 2025-02-01 instead of 2025-03-01. -/
theorem C1_counterexample :
    validCivil 2025 3 1 ∧
    getDateComponentsInTimezone (createDateFromTimezone 2025 3 1 0 0 (-300)) (-300) =
      ⟨2025, 2, 1, 0, 0⟩ ∧
    getDateComponentsInTimezone (createDateFromTimezone 2025 3 1 0 0 (-300)) (-300) ≠
      ⟨2025, 3, 1, 0, 0⟩ := by
  refine ⟨by decide, by decide, by decide⟩

/-- Claim C1 as amended: for every valid (date, time, timezone-offset)
triple whose candidate instant, when formatted in the timezone, still reads
back the requested year and month (day rollovers inside one month are fine,
rollovers across a month or year boundary are excluded), converting with
`createDateFromTimezone` and reading back with `getDateComponentsInTimezone`
reproduces the original components exactly. -/
theorem C1_roundtrip_sameMonth (y mo d h mi off : Int)
    (hv : validCivil y mo d) (hh0 : 0 ≤ h) (hh1 : h ≤ 23) (hm0 : 0 ≤ mi) (hm1 : mi ≤ 59)
    (hy : (civilFromDays ((daysFromCivil y mo d * 1440 + h * 60 + mi + off) / 1440)).1 = y)
    (hmo : (civilFromDays ((daysFromCivil y mo d * 1440 + h * 60 + mi + off) / 1440)).2.1 = mo) :
    getDateComponentsInTimezone (createDateFromTimezone y mo d h mi off) off =
      ⟨y, mo, d, h, mi⟩ := by
  rw [getDateComponentsInTimezone, createDateFromTimezone_eq_sameMonth y mo d h mi off hy hmo]
  rw [show daysFromCivil y mo d * 1440 + h * 60 + mi - off + off =
      daysFromCivil y mo d * 1440 + (h * 60 + mi) from by ring]
  exact minutesToComponents_compose y mo d h mi hv hh0 hh1 hm0 hm1

/-- Witness for `C1_roundtrip_sameMonth` at 2025-09-17 18:00, offset
UTC-05:00. -/
theorem C1_roundtrip_sameMonth_witness :
    getDateComponentsInTimezone (createDateFromTimezone 2025 9 17 18 0 (-300)) (-300) =
      ⟨2025, 9, 17, 18, 0⟩ :=
  C1_roundtrip_sameMonth 2025 9 17 18 0 (-300) (by decide) (by decide) (by decide)
    (by decide) (by decide) (by decide) (by decide)

theorem digitChar_spec (n : Int) (h0 : 0 ≤ n) (h1 : n ≤ 9) :
    (digitChar n).isDigit = true ∧ digitVal (digitChar n) = n := by
  interval_cases n <;> exact ⟨by decide, by decide⟩

theorem read2_pad2 (n : Int) (h0 : 0 ≤ n) (h1 : n ≤ 99) (rest : List Char) :
    read2 (pad2 n ++ rest) = some (n, rest) := by
  have ha := digitChar_spec (n / 10) (by omega) (by omega)
  have hb := digitChar_spec (n % 10) (by omega) (by omega)
  simp only [pad2, List.cons_append, List.nil_append, read2, ha.1, hb.1, Bool.and_self,
    if_pos, ha.2, hb.2]
  rw [show 10 * (n / 10) + n % 10 = n from by omega]

theorem read4_pad4 (n : Int) (h0 : 0 ≤ n) (h1 : n ≤ 9999) (rest : List Char) :
    read4 (pad4 n ++ rest) = some (n, rest) := by
  have ha := digitChar_spec (n / 1000) (by omega) (by omega)
  have hb := digitChar_spec (n / 100 % 10) (by omega) (by omega)
  have hc := digitChar_spec (n / 10 % 10) (by omega) (by omega)
  have hd := digitChar_spec (n % 10) (by omega) (by omega)
  simp only [pad4, List.cons_append, List.nil_append, read4, ha.1, hb.1, hc.1, hd.1,
    Bool.and_self, if_pos, ha.2, hb.2, hc.2, hd.2]
  rw [show 1000 * (n / 1000) + 100 * (n / 100 % 10) + 10 * (n / 10 % 10) + n % 10 = n from by omega]

theorem expectChar_cons (c : Char) (rest : List Char) : expectChar c (c :: rest) = some rest := by
  simp [expectChar]

/-- Parsing a printed instant returns the instant: `new Date(d.toISOString())`
recovers `d`. -/
theorem jsDateParse_toISOString (t : Int) (hy : isoYearInRange t) :
    jsDateParse (toISOString t) = some t := by
  obtain ⟨hy0, hy1⟩ := hy
  simp only [minutesToComponents] at hy0 hy1
  have hb := daysFromCivil_civilFromDays (t / 1440)
  have e1 := Int.ediv_add_emod t 1440
  have e2 := Int.emod_nonneg t (by norm_num : (1440 : Int) ≠ 0)
  have e3 := Int.emod_lt_of_pos t (by norm_num : (0 : Int) < 1440)
  simp only [toISOString, toISOChars, minutesToComponents, jsDateParse]
  rw [read4_pad4 ((civilFromDays (t / 1440)).1) hy0 hy1]
  simp only [expectChar_cons, List.cons_append]
  rw [read2_pad2 ((civilFromDays (t / 1440)).2.1) (by omega) (by omega)]
  dsimp only
  rw [expectChar_cons]
  dsimp only
  rw [read2_pad2 ((civilFromDays (t / 1440)).2.2) (by omega) (by omega)]
  dsimp only
  rw [expectChar_cons]
  dsimp only
  rw [read2_pad2 (t % 1440 / 60) (by omega) (by omega)]
  dsimp only
  rw [expectChar_cons]
  dsimp only
  rw [read2_pad2 (t % 1440 % 60) (by omega) (by omega)]
  dsimp only
  rw [show readSecondsMs [':', '0', '0', '.', '0', '0', '0', 'Z'] = some ['Z'] from by decide]
  dsimp only
  rw [show daysFromCivil (civilFromDays (t / 1440)).1 (civilFromDays (t / 1440)).2.1
      (civilFromDays (t / 1440)).2.2 * 1440 + t % 1440 / 60 * 60 + t % 1440 % 60 = t from by omega]
  rfl

/-! ### Characterizing the extraction loop -/

theorem digitChar_isDigit (n : Int) : (digitChar n).isDigit = true := by
  unfold digitChar
  split_ifs <;> decide

/-- Every string printed by `toISOString` starts with `YYYY-MM-DD`. -/
theorem startsYMD_toISOString (t : Int) : startsYMD (toISOString t) = true := by
  simp only [toISOString, toISOChars, pad4, pad2, List.cons_append, List.nil_append,
    startsYMD, String.data, digitChar_isDigit, Bool.and_self]

theorem applyPattern_eq (cy t : Int) (raw : String) (ev : ParsedEvent) (p : TimePattern)
    (htz : ev.timezone = some ("America/New_York")) :
    applyPattern cy (some t) raw ev p =
      match runPattern p raw with
      | none => ev
      | some r => overwriteRange cy t r ev := by
  unfold applyPattern overwriteRange
  cases h : runPattern p raw with
  | none => rfl
  | some r =>
    obtain ⟨sh, sm, eh, em⟩ := r
    rw [htz]
    simp [orNY, tzOffset]

theorem overwriteRange_timezone (cy t : Int) (r : Int × Int × Int × Int) (ev : ParsedEvent) :
    (overwriteRange cy t r ev).timezone = some ("America/New_York") := by
  rfl

theorem overwriteRange_startsYMD (cy t : Int) (r : Int × Int × Int × Int) (ev : ParsedEvent) :
    startsYMD (overwriteRange cy t r ev).startISO = true := by
  simp only [overwriteRange]
  exact startsYMD_toISOString _

theorem overwriteRange_absorb (cy t : Int) (r r' : Int × Int × Int × Int) (ev : ParsedEvent)
    (hys : startsYMD ev.startISO = true) :
    overwriteRange cy t r (overwriteRange cy t r' ev) = overwriteRange cy t r ev := by
  obtain ⟨t1, d1, l1, s1, e1, tz1, a1⟩ := ev
  simp only [overwriteRange, startsYMD_toISOString] at hys ⊢
  simp only [hys]

/-- A left fold of the per-pattern update is determined by the last pattern
that matches (the accumulator view of the loop). -/
theorem foldl_overwrite (cy t : Int) (raw : String) :
    ∀ (ps : List TimePattern) (ev : ParsedEvent) (acc : Option (Int × Int × Int × Int)),
    ev.timezone = some ("America/New_York") → startsYMD ev.startISO = true →
    ps.foldl (applyPattern cy (some t) raw)
        (match acc with
         | none => ev
         | some r => overwriteRange cy t r ev) =
      (match ps.foldl (fun a p =>
          match runPattern p raw with
          | some r => some r
          | none => a) acc with
       | none => ev
       | some r => overwriteRange cy t r ev) := by
  intro ps
  induction ps with
  | nil => intro ev acc _ _; rfl
  | cons p ps ih =>
    intro ev acc htz hys
    simp only [List.foldl_cons]
    cases acc with
    | none =>
      rw [applyPattern_eq cy t raw ev p htz]
      cases h : runPattern p raw with
      | none =>
        have := ih ev none htz hys
        simpa [h] using this
      | some r =>
        have := ih ev (some r) htz hys
        simpa [h] using this
    | some r' =>
      rw [applyPattern_eq cy t raw (overwriteRange cy t r' ev) p
        (overwriteRange_timezone cy t r' ev)]
      cases h : runPattern p raw with
      | none =>
        have := ih ev (some r') htz hys
        simpa [h] using this
      | some r =>
        dsimp only
        rw [overwriteRange_absorb cy t r r' ev hys]
        have := ih ev (some r) htz hys
        simpa [h] using this

/-- The extraction loop, characterized: the event is unchanged when no
pattern matches, and otherwise rewritten by the last matching pattern of
`timePatterns` (`extractLast`). -/
theorem timeLoop_char (raw : String) (cy t : Int) (ev : ParsedEvent)
    (ht : jsDateParse ev.startISO = some t)
    (htz : ev.timezone = some ("America/New_York"))
    (hys : startsYMD ev.startISO = true) :
    timeLoop raw cy ev =
      (match extractLast raw with
       | none => ev
       | some r => overwriteRange cy t r ev) := by
  unfold timeLoop extractLast
  rw [ht]
  exact foldl_overwrite cy t raw timePatterns ev none htz hys

/-- When no pattern matches, the loop leaves any event unchanged (no
hypotheses on the event are needed: the pattern test comes first). -/
theorem timeLoop_of_extract_none (raw : String) (cy : Int) (ev : ParsedEvent)
    (h : extractLast raw = none) : timeLoop raw cy ev = ev := by
  have hall : ∀ (ps : List TimePattern) (acc : Option (Int × Int × Int × Int)),
      ps.foldl (fun a p =>
        match runPattern p raw with
        | some r => some r
        | none => a) acc = none → acc = none ∧ ∀ p ∈ ps, runPattern p raw = none := by
    intro ps
    induction ps with
    | nil => intro acc h; exact ⟨h, by simp⟩
    | cons p ps ih =>
      intro acc h
      simp only [List.foldl_cons] at h
      obtain ⟨hstep, hrest⟩ := ih _ h
      cases hp : runPattern p raw with
      | none =>
        rw [hp] at hstep
        exact ⟨hstep, by simpa [hp] using hrest⟩
      | some r => rw [hp] at hstep; cases hstep
  have hnone := (hall timePatterns none h).2
  unfold timeLoop
  have : ∀ (ps : List TimePattern), (∀ p ∈ ps, runPattern p raw = none) →
      ps.foldl (applyPattern cy (jsDateParse ev.startISO) raw) ev = ev := by
    intro ps
    induction ps with
    | nil => intro _; rfl
    | cons p ps ih =>
      intro hps
      simp only [List.foldl_cons]
      have hp := hps p (by simp)
      have hstep : applyPattern cy (jsDateParse ev.startISO) raw ev p = ev := by
        unfold applyPattern
        rw [hp]
      rw [hstep]
      exact ih (fun q hq => hps q (by simp [hq]))
  exact this timePatterns hnone

/-- Reassembling the components of an instant gives the instant back. -/
theorem compose_decompose (x : Int) :
    daysFromCivil (minutesToComponents x).year (minutesToComponents x).month
        (minutesToComponents x).day * 1440 +
      (minutesToComponents x).hours * 60 + (minutesToComponents x).minutes = x := by
  have hb := (daysFromCivil_civilFromDays (x / 1440)).1
  have e1 := Int.ediv_add_emod x 1440
  have e2 := Int.emod_nonneg x (by norm_num : (1440 : Int) ≠ 0)
  have e3 := Int.emod_lt_of_pos x (by norm_num : (0 : Int) < 1440)
  have e4 := Int.ediv_add_emod (x % 1440) 60
  simp only [minutesToComponents]
  omega

/-! ### Field preservation along the pipeline -/

theorem descMergeStep_preserves (raw : String) (ev : ParsedEvent) :
    (descMergeStep raw ev).allDay = ev.allDay ∧ (descMergeStep raw ev).timezone = ev.timezone ∧
    (descMergeStep raw ev).startISO = ev.startISO ∧
    (descMergeStep raw ev).endISO = ev.endISO := by
  simp only [descMergeStep]
  repeat' split
  all_goals exact ⟨rfl, rfl, rfl, rfl⟩

theorem yearStep_preserves (cy : Int) (ev : ParsedEvent) :
    (yearStep cy ev).allDay = ev.allDay ∧ (yearStep cy ev).timezone = ev.timezone := by
  unfold yearStep
  split
  · split
    · exact ⟨rfl, rfl⟩
    · exact ⟨rfl, rfl⟩
  · exact ⟨rfl, rfl⟩

theorem allDayStep_timezone (ev : ParsedEvent) : (allDayStep ev).timezone = ev.timezone := by
  unfold allDayStep
  split <;> rfl

theorem applyPattern_timezone (cy : Int) (t0 : Option Int) (raw : String) (ev : ParsedEvent)
    (p : TimePattern) (htz : ev.timezone = some ("America/New_York")) :
    (applyPattern cy t0 raw ev p).timezone = some ("America/New_York") := by
  cases t0 with
  | none =>
    unfold applyPattern
    cases h : runPattern p raw with
    | none => exact htz
    | some r => obtain ⟨a, b, c, d⟩ := r; exact htz
  | some t =>
    rw [applyPattern_eq cy t raw ev p htz]
    cases h : runPattern p raw with
    | none => exact htz
    | some r => exact overwriteRange_timezone cy t r ev

theorem timeLoop_timezone (raw : String) (cy : Int) (ev : ParsedEvent)
    (htz : ev.timezone = some ("America/New_York")) :
    (timeLoop raw cy ev).timezone = some ("America/New_York") := by
  unfold timeLoop
  have : ∀ (ps : List TimePattern) (e : ParsedEvent),
      e.timezone = some ("America/New_York") →
      (ps.foldl (applyPattern cy (jsDateParse ev.startISO) raw) e).timezone =
        some ("America/New_York") := by
    intro ps
    induction ps with
    | nil => intro e he; exact he
    | cons p ps ih =>
      intro e he
      simp only [List.foldl_cons]
      exact ih _ (applyPattern_timezone cy (jsDateParse ev.startISO) raw e p he)
  exact this timePatterns ev htz

theorem fixEvent_timezone (raw : String) (cy : Int) (ev : ParsedEvent)
    (htz : ev.timezone = some ("America/New_York")) :
    (fixEvent raw cy ev).timezone = some ("America/New_York") := by
  unfold fixEvent
  apply timeLoop_timezone
  by_cases hy : hasYearInText raw = true
  · rw [if_pos hy]
    by_cases hd : allDayDecision raw (descMergeStep raw ev).allDay = true
    · rw [if_pos hd, allDayStep_timezone, (descMergeStep_preserves raw ev).2.1]
      exact htz
    · rw [if_neg hd, (descMergeStep_preserves raw ev).2.1]
      exact htz
  · rw [if_neg hy]
    by_cases hd : allDayDecision raw (yearStep cy (descMergeStep raw ev)).allDay = true
    · rw [if_pos hd, allDayStep_timezone, (yearStep_preserves cy (descMergeStep raw ev)).2,
        (descMergeStep_preserves raw ev).2.1]
      exact htz
    · rw [if_neg hd, (yearStep_preserves cy (descMergeStep raw ev)).2,
        (descMergeStep_preserves raw ev).2.1]
      exact htz

theorem normalizeItem_timezone (item : JVal) (rv : Option JVal) (ev : ParsedEvent)
    (h : normalizeItem item rv = some ev) : ev.timezone = some ("America/New_York") := by
  simp only [normalizeItem] at h
  unfold mkValidated at h
  split at h
  · injection h with h'
    rw [← h']
  · cases h

theorem aiEvent_timezone (j : JVal) (ext : Option String) (ev : ParsedEvent)
    (h : aiEvent j ext = some ev) : ev.timezone = some ("America/New_York") := by
  unfold aiEvent at h
  split at h
  · exact normalizeItem_timezone _ _ _ h
  · cases h

/-- Claim C10: every event the AI-success path returns carries the constant
display timezone `America/New_York` in its `timezone` field, whatever
source timezone was used for interpretation. -/
theorem C10_timezone (o : GeminiOutcome) (ext : Option String) (isImage : Bool)
    (now cy : Int) (e : ParsedEvent)
    (hm : (processOutcome o ext isImage now cy).method = ParseMethod.gemini)
    (he : e ∈ (processOutcome o ext isImage now cy).events) :
    e.timezone = some ("America/New_York") := by
  cases o with
  | noText => simp [processOutcome] at hm
  | unparsable snippet => simp [processOutcome] at hm
  | json j =>
    simp only [processOutcome] at hm he
    cases haa : aiEvent j ext with
    | none => simp [haa] at hm
    | some ev =>
      simp only [haa] at hm he
      have hevtz := aiEvent_timezone j ext ev haa
      cases hrw : resolvedRawText j ext with
      | none =>
        simp only [hrw, List.mem_singleton] at he
        rw [he]; exact hevtz
      | some v =>
        cases v with
        | str rt =>
          simp only [hrw] at he
          by_cases hrt : rt = ""
          · simp only [if_pos hrt, List.mem_singleton] at he
            rw [he]; exact hevtz
          · simp only [if_neg hrt, List.mem_singleton] at he
            rw [he]
            exact fixEvent_timezone rt cy ev hevtz
        | nul => simp [hrw] at hm
        | bool b => simp [hrw] at hm
        | num n => simp [hrw] at hm
        | arr xs => simp [hrw] at hm
        | obj fs => simp [hrw] at hm

/-- Witness for `C10_timezone` on a concrete Gemini payload: the event the
run returns carries the constant timezone. -/
theorem C10_timezone_witness :
    ({ title := "T", description := some ("#Registration Not Mentioned\n\n"),
       location := some (""), startISO := "2025-05-10T20:00:00.000Z",
       endISO := "2025-05-10T21:00:00.000Z", timezone := some ("America/New_York"),
       allDay := none } : ParsedEvent).timezone = some ("America/New_York") :=
  C10_timezone (GeminiOutcome.json c10Json) none false 0 2025
    { title := "T", description := some ("#Registration Not Mentioned\n\n"),
      location := some (""), startISO := "2025-05-10T20:00:00.000Z",
      endISO := "2025-05-10T21:00:00.000Z", timezone := some ("America/New_York"),
      allDay := none } (by decide) (by decide)

/-- Claim C8: whenever the response is unusable, the result has method
`fallback` and exactly one event — title the first line of the input
truncated to 60 characters (`Untitled Event` when empty), description the
first 500 characters, start one hour after invocation, end one hour after
the start. -/
theorem C8_fallbackShape (o : GeminiOutcome) (ext : Option String) (isImage : Bool)
    (now cy : Int) (h : unusableOutcome o ext) :
    (processOutcome o ext isImage now cy).method = ParseMethod.fallback ∧
    (processOutcome o ext isImage now cy).events =
      [ { title :=
            if String.mk (((ext.getD (if isImage then "Image input" else "")).data.takeWhile
                (fun c => c ≠ '\n')).take 60) = "" then "Untitled Event"
            else String.mk (((ext.getD (if isImage then "Image input" else "")).data.takeWhile
                (fun c => c ≠ '\n')).take 60),
          description :=
            some (String.mk ((ext.getD (if isImage then "Image input" else "")).data.take 500)),
          location := none,
          startISO := toISOString (now + 60),
          endISO := toISOString (now + 60 + 60),
          timezone := none,
          allDay := none } ] := by
  cases o with
  | noText => exact ⟨rfl, rfl⟩
  | unparsable s => exact ⟨rfl, rfl⟩
  | json j =>
    have hj : aiEvent j ext = none := h
    unfold processOutcome
    dsimp only
    rw [hj]
    exact ⟨rfl, rfl⟩

/-- Witness for `C8_fallbackShape` on a missing text response. -/
theorem C8_fallbackShape_witness :
    (processOutcome GeminiOutcome.noText (some ("Club fair sign-ups\nFriday 5pm")) false
        1000 2025).method = ParseMethod.fallback ∧
    (processOutcome GeminiOutcome.noText (some ("Club fair sign-ups\nFriday 5pm")) false
        1000 2025).events =
      [ { title :=
            if String.mk ((((some ("Club fair sign-ups\nFriday 5pm") : Option String).getD
                (if false then "Image input" else "")).data.takeWhile
                (fun c => c ≠ '\n')).take 60) = "" then "Untitled Event"
            else String.mk ((((some ("Club fair sign-ups\nFriday 5pm") : Option String).getD
                (if false then "Image input" else "")).data.takeWhile
                (fun c => c ≠ '\n')).take 60),
          description :=
            some (String.mk (((some ("Club fair sign-ups\nFriday 5pm") : Option String).getD
              (if false then "Image input" else "")).data.take 500)),
          location := none,
          startISO := toISOString ((1000 : Int) + 60),
          endISO := toISOString ((1000 : Int) + 60 + 60),
          timezone := none,
          allDay := none } ] :=
  C8_fallbackShape GeminiOutcome.noText (some ("Club fair sign-ups\nFriday 5pm")) false
    1000 2025 True.intro

/-- Claim C7 is refuted: a timestamp carrying a trailing `Z` whose assumed
source timezone is `America/Los_Angeles` — non-UTC — passes through the
conversion byte-identical (no stripping, no reinterpretation), while the
wall-clock reading of those digits in Los Angeles would be the different
instant shown; only `America/New_York` gets the Z-stripping treatment. -/
theorem C7_counterexample :
    jvalAsStr (convertStamp (some (JVal.str ("2025-05-10T18:00:00Z")))
        (JVal.str ("America/Los_Angeles"))) = some ("2025-05-10T18:00:00Z") ∧
    toISOString (createDateFromTimezone 2025 5 10 18 0 (-480)) = "2025-05-11T02:00:00.000Z" ∧
    ("2025-05-10T18:00:00Z" : String) ≠ "2025-05-11T02:00:00.000Z" ∧
    jvalAsStr (convertStamp (some (JVal.str ("2025-05-10T18:00:00Z")))
        (JVal.str ("America/New_York"))) = some ("2025-05-10T23:00:00.000Z") := by
  refine ⟨by decide, by decide, by decide, by decide⟩

/-- Claim C7 as amended: the trailing `Z` is stripped and the digits are
reinterpreted as source-timezone wall-clock time exactly when the assumed
source timezone is `America/New_York`; for every other assumed timezone the
`Z`-carrying string passes through the conversion unchanged. -/
theorem C7_zStripOnlyNY :
    (∀ (s tzs : String), strEndsWith s 'Z' = true → ¬ tzs = "America/New_York" →
      convertStamp (some (JVal.str s)) (JVal.str tzs) = some (JVal.str s)) ∧
    (∀ (s : String) (y mo d hr mi : Int), strEndsWith s 'Z' = true →
      strEndsWith (dropLastChar s) 'Z' = false →
      endsWithOffset (dropLastChar s) = false →
      findISO ((dropLastChar s).data) = some (y, mo, d, hr, mi) →
      convertStamp (some (JVal.str s)) (JVal.str ("America/New_York")) =
        some (JVal.str (toISOString (createDateFromTimezone y mo d hr mi (-300))))) := by
  constructor
  · intro s tzs h1 h2
    simp [convertStamp, h1, h2]
  · intro s y mo d hr mi h1 h2 h3 h4
    simp [convertStamp, h1, h2, h3, h4, tzOffset]

/-- Witness for `C7_zStripOnlyNY`: a Chicago-labelled `Z` string passes
through unchanged; the same string labelled New York is reinterpreted. -/
theorem C7_zStripOnlyNY_witness :
    convertStamp (some (JVal.str ("2025-07-04T12:00:00Z"))) (JVal.str ("America/Chicago")) =
      some (JVal.str ("2025-07-04T12:00:00Z")) ∧
    convertStamp (some (JVal.str ("2025-07-04T12:00:00Z"))) (JVal.str ("America/New_York")) =
      some (JVal.str (toISOString (createDateFromTimezone 2025 7 4 12 0 (-300)))) :=
  ⟨C7_zStripOnlyNY.1 ("2025-07-04T12:00:00Z") ("America/Chicago") (by decide) (by decide),
   C7_zStripOnlyNY.2 ("2025-07-04T12:00:00Z") 2025 7 4 12 0 (by decide) (by decide)
     (by decide) (by decide)⟩

/-- Claim C4: the 12-hour to 24-hour conversion rules (`12pm → 12`,
`12am → 0`, `Npm → N+12`, `Nam → N`), the two worked extraction examples,
and the no-match policy — a text with no matching pattern extracts nothing
and the loop keeps the event exactly as the AI proposed it. -/
theorem C4_conversion :
    (∀ n : Int, pmAdjust n = if n = 12 then 12 else n + 12) ∧
    (∀ n : Int, amAdjust n = if n = 12 then 0 else n) ∧
    extractLast ("6pm - 9pm") = some (18, 0, 21, 0) ∧
    extractLast ("10:30AM-4PM") = some (10, 30, 16, 0) ∧
    extractLast ("no time info") = none ∧
    ∀ (cy : Int) (ev : ParsedEvent), timeLoop ("no time info") cy ev = ev := by
  refine ⟨?_, ?_, by decide, by decide, by decide, ?_⟩
  · intro n
    unfold pmAdjust
    split_ifs with hn
    · exact hn
    · rfl
  · intro n
    rfl
  · intro cy ev
    exact timeLoop_of_extract_none ("no time info") cy ev (by decide)

set_option maxRecDepth 8192 in
/-- Claim C3 is refuted: on the text `6-9pm 7am-8am` the first matching
pattern extracts 18:00–21:00, but the loop has no `break`, so a later
matching pattern overwrites it and the event ends at 07:00–08:00 New York
wall clock (12:00–13:00 UTC), not at the first match's 18:00 (23:00 UTC). -/
theorem C3_counterexample :
    extractFirstSpec ("6-9pm 7am-8am") = some (18, 0, 21, 0) ∧
    extractLast ("6-9pm 7am-8am") = some (7, 0, 8, 0) ∧
    extractLast ("6-9pm 7am-8am") ≠ extractFirstSpec ("6-9pm 7am-8am") ∧
    (timeLoop ("6-9pm 7am-8am") 2025 evC3).startISO = "2025-06-10T12:00:00.000Z" ∧
    (timeLoop ("6-9pm 7am-8am") 2025 evC3).endISO = "2025-06-10T13:00:00.000Z" ∧
    toISOString (createDateFromTimezone 2025 6 10 18 0 (-300)) = "2025-06-10T23:00:00.000Z" := by
  refine ⟨by decide, by decide, by decide, by decide, by decide, by decide⟩

/-- Claim C3 as amended: the patterns are tried in their fixed order, but
every matching pattern overwrites the previous result, so the extraction
loop is determined by the last pattern in the list that matches
(`extractLast`), not the first. -/
theorem C3_lastMatchWins (raw : String) (cy t : Int) (ev : ParsedEvent)
    (ht : jsDateParse ev.startISO = some t)
    (htz : ev.timezone = some ("America/New_York"))
    (hys : startsYMD ev.startISO = true) :
    timeLoop raw cy ev =
      match extractLast raw with
      | none => ev
      | some r => overwriteRange cy t r ev :=
  timeLoop_char raw cy t ev ht htz hys

/-- Witness for `C3_lastMatchWins` on a concrete event and text. -/
theorem C3_lastMatchWins_witness :
    timeLoop ("6pm - 9pm") 2025 evC3w =
      match extractLast ("6pm - 9pm") with
      | none => evC3w
      | some r => overwriteRange 2025 ((jsDateParse ("2025-09-17T22:00:00.000Z")).getD 0) r evC3w :=
  C3_lastMatchWins ("6pm - 9pm") 2025 ((jsDateParse ("2025-09-17T22:00:00.000Z")).getD 0) evC3w
    (by decide) (by decide) (by decide)

/-- Claim C2 is refuted: nothing on the success path checks the order of the
two instants, so an AI-proposed end before the start survives every
correction pass and schema validation — the returned event's `endISO`
parses to an instant strictly before its `startISO`. -/
theorem C2_counterexample :
    (processOutcome (GeminiOutcome.json c2Json) none false 0 2025).method =
      ParseMethod.gemini ∧
    (processOutcome (GeminiOutcome.json c2Json) none false 0 2025).events.map
      (fun e => (e.startISO, e.endISO)) =
      [("2025-05-10T20:00:00.000Z", "2025-05-10T19:00:00.000Z")] ∧
    isoLt ("2025-05-10T19:00:00.000Z") ("2025-05-10T20:00:00.000Z") = true := by
  refine ⟨by decide, by decide, by decide⟩

/-- Claim C2 as amended: the order invariant holds exactly on the events the
extraction loop rebuilds — when a time range is extracted from the raw text
and the rebuilt instants stay in the start's month (the month-boundary bug
of `createDateFromTimezone` aside), the resulting `endISO` is strictly after
`startISO`; events whose instants come straight from the AI output carry no
such guarantee. -/
theorem C2_endAfterStart (raw : String) (cy t sh sm eh em y mo d : Int) (ev : ParsedEvent)
    (ht : jsDateParse ev.startISO = some t)
    (htz : ev.timezone = some ("America/New_York"))
    (hys : startsYMD ev.startISO = true)
    (hx : extractLast raw = some (sh, sm, eh, em))
    (hy : (minutesToComponents t).year = y)
    (hmo : (minutesToComponents t).month = mo)
    (hd : (minutesToComponents t).day = d)
    (hs0 : 0 ≤ sh * 60 + sm) (hs1 : sh * 60 + sm ≤ 1439)
    (he0 : 0 ≤ eh * 60 + em) (he1 : eh * 60 + em ≤ 1439)
    (hyS : (civilFromDays ((daysFromCivil y mo d * 1440 + sh * 60 + sm + (-300)) / 1440)).1 = y)
    (hmoS : (civilFromDays ((daysFromCivil y mo d * 1440 + sh * 60 + sm + (-300)) / 1440)).2.1 = mo)
    (hyE : (civilFromDays ((daysFromCivil y mo d * 1440 + eh * 60 + em + (-300)) / 1440)).1 = y)
    (hmoE : (civilFromDays ((daysFromCivil y mo d * 1440 + eh * 60 + em + (-300)) / 1440)).2.1 = mo)
    (hr1 : isoYearInRange (daysFromCivil y mo d * 1440 + sh * 60 + sm + 300))
    (hr2 : isoYearInRange (daysFromCivil y mo d * 1440 + eh * 60 + em + 300))
    (hr3 : isoYearInRange (daysFromCivil y mo d * 1440 + eh * 60 + em + 300 + 1440)) :
    isoLt (timeLoop raw cy ev).startISO (timeLoop raw cy ev).endISO = true := by
  rw [timeLoop_char raw cy t ev ht htz hys, hx]
  simp only [overwriteRange]
  simp only [hys, if_true]
  rw [hy, hmo, hd]
  rw [createDateFromTimezone_eq_sameMonth y mo d sh sm (-300) hyS hmoS,
    createDateFromTimezone_eq_sameMonth y mo d eh em (-300) hyE hmoE]
  rw [show daysFromCivil y mo d * 1440 + sh * 60 + sm - (-300) =
      daysFromCivil y mo d * 1440 + sh * 60 + sm + 300 from by ring,
    show daysFromCivil y mo d * 1440 + eh * 60 + em - (-300) =
      daysFromCivil y mo d * 1440 + eh * 60 + em + 300 from by ring]
  by_cases hw : daysFromCivil y mo d * 1440 + eh * 60 + em + 300 ≤
      daysFromCivil y mo d * 1440 + sh * 60 + sm + 300
  · rw [if_pos hw]
    simp only [isoLt]
    rw [jsDateParse_toISOString (daysFromCivil y mo d * 1440 + sh * 60 + sm + 300) hr1,
      jsDateParse_toISOString (daysFromCivil y mo d * 1440 + eh * 60 + em + 300 + 1440) hr3]
    dsimp only
    simp only [decide_eq_true_eq]
    omega
  · rw [if_neg hw]
    simp only [isoLt]
    rw [jsDateParse_toISOString (daysFromCivil y mo d * 1440 + sh * 60 + sm + 300) hr1,
      jsDateParse_toISOString (daysFromCivil y mo d * 1440 + eh * 60 + em + 300) hr2]
    dsimp only
    simp only [decide_eq_true_eq]
    omega

/-- Witness for `C2_endAfterStart`: extracting `6pm - 9pm` on a mid-month
event yields an end strictly after the start. -/
theorem C2_endAfterStart_witness :
    isoLt (timeLoop ("6pm - 9pm") 2025 evC2w).startISO
      (timeLoop ("6pm - 9pm") 2025 evC2w).endISO = true :=
  C2_endAfterStart ("6pm - 9pm") 2025 ((jsDateParse ("2025-09-17T22:00:00.000Z")).getD 0)
    18 0 21 0 2025 9 17 evC2w (by decide) (by decide) (by decide) (by decide) (by decide)
    (by decide) (by decide) (by decide) (by decide) (by decide) (by decide) (by decide)
    (by decide) (by decide) (by decide) (by decide) (by decide) (by decide)

/-- Claim C5 is refuted: on a first-of-month event the wrapped range
`11:00 PM - 2 AM` takes the one-day adjustment branch, yet the returned
duration is negative — rebuilding the 2 AM end crosses the month boundary
inside `createDateFromTimezone`, whose day-only correction lands it a month
early, and adding one day does not recover. -/
theorem C5_counterexample :
    extractLast ("11:00 PM - 2 AM 2025") = some (23, 0, 2, 0) ∧
    createDateFromTimezone 2025 3 1 2 0 (-300) ≤ createDateFromTimezone 2025 3 1 23 0 (-300) ∧
    (processOutcome (GeminiOutcome.json c5Json) none false 0 2025).method =
      ParseMethod.gemini ∧
    (processOutcome (GeminiOutcome.json c5Json) none false 0 2025).events.map
      (fun e => (e.startISO, e.endISO)) =
      [("2025-03-02T04:00:00.000Z", "2025-02-02T07:00:00.000Z")] ∧
    isoLt ("2025-02-02T07:00:00.000Z") ("2025-03-02T04:00:00.000Z") = true := by
  refine ⟨by decide, by decide, by decide, by decide, by decide⟩

/-- Claim C5 as amended: when both rebuilt instants stay in the start's
month, a non-wrapping end needs no adjustment and a wrapping end is advanced
by exactly one day (1440 minutes), and in either case the adjusted end is
strictly after the start. -/
theorem C5_wrapAdjust (y mo d sh sm eh em off : Int)
    (hs0 : 0 ≤ sh * 60 + sm) (hs1 : sh * 60 + sm ≤ 1439)
    (he0 : 0 ≤ eh * 60 + em) (he1 : eh * 60 + em ≤ 1439)
    (hyS : (civilFromDays ((daysFromCivil y mo d * 1440 + sh * 60 + sm + off) / 1440)).1 = y)
    (hmoS : (civilFromDays ((daysFromCivil y mo d * 1440 + sh * 60 + sm + off) / 1440)).2.1 = mo)
    (hyE : (civilFromDays ((daysFromCivil y mo d * 1440 + eh * 60 + em + off) / 1440)).1 = y)
    (hmoE : (civilFromDays ((daysFromCivil y mo d * 1440 + eh * 60 + em + off) / 1440)).2.1 = mo) :
    (createDateFromTimezone y mo d eh em off ≤ createDateFromTimezone y mo d sh sm off →
      (if createDateFromTimezone y mo d eh em off ≤ createDateFromTimezone y mo d sh sm off
        then createDateFromTimezone y mo d eh em off + 1440
        else createDateFromTimezone y mo d eh em off) =
        createDateFromTimezone y mo d eh em off + 1440) ∧
    createDateFromTimezone y mo d sh sm off <
      (if createDateFromTimezone y mo d eh em off ≤ createDateFromTimezone y mo d sh sm off
        then createDateFromTimezone y mo d eh em off + 1440
        else createDateFromTimezone y mo d eh em off) := by
  have h1 := createDateFromTimezone_eq_sameMonth y mo d sh sm off hyS hmoS
  have h2 := createDateFromTimezone_eq_sameMonth y mo d eh em off hyE hmoE
  refine ⟨fun hle => if_pos hle, ?_⟩
  rw [h1, h2]
  split_ifs with hw <;> omega

/-- Witness for `C5_wrapAdjust`: a 10 PM – 2 AM range on a mid-month day is
advanced by one day and ends after its start. -/
theorem C5_wrapAdjust_witness :
    (createDateFromTimezone 2025 6 10 2 0 (-300) ≤ createDateFromTimezone 2025 6 10 22 0 (-300) →
      (if createDateFromTimezone 2025 6 10 2 0 (-300) ≤ createDateFromTimezone 2025 6 10 22 0 (-300)
        then createDateFromTimezone 2025 6 10 2 0 (-300) + 1440
        else createDateFromTimezone 2025 6 10 2 0 (-300)) =
        createDateFromTimezone 2025 6 10 2 0 (-300) + 1440) ∧
    createDateFromTimezone 2025 6 10 22 0 (-300) <
      (if createDateFromTimezone 2025 6 10 2 0 (-300) ≤ createDateFromTimezone 2025 6 10 22 0 (-300)
        then createDateFromTimezone 2025 6 10 2 0 (-300) + 1440
        else createDateFromTimezone 2025 6 10 2 0 (-300)) :=
  C5_wrapAdjust 2025 6 10 22 0 2 0 (-300) (by decide) (by decide) (by decide) (by decide)
    (by decide) (by decide) (by decide) (by decide)

/-- Claim C6 is refuted on its last part: the extraction loop runs after the
all-day override, so on `all day 6pm-9pm` the decision is true and the event
is marked all-day, yet the extracted 6pm–9pm range overwrites the local
00:00/23:59 bounds the override had set, instead of being discarded. -/
theorem C6_counterexample :
    allDayDecision ("all day 6pm-9pm") (some false) = true ∧
    (processOutcome (GeminiOutcome.json c6Json) none false 0 2025).events.map
      (fun e => (e.allDay, e.startISO, e.endISO)) =
      [(some true, "2025-06-10T23:00:00.000Z", "2025-06-11T02:00:00.000Z")] ∧
    toISOString (createDateFromTimezone 2025 6 10 0 0 (-300)) = "2025-06-10T05:00:00.000Z" ∧
    toISOString (createDateFromTimezone 2025 6 10 23 59 (-300)) = "2025-06-11T04:59:00.000Z" ∧
    ("2025-06-10T23:00:00.000Z" : String) ≠ "2025-06-10T05:00:00.000Z" := by
  refine ⟨by decide, by decide, by decide, by decide, by decide⟩

/-- Claim C6 as amended: the decision formula and its two examples hold, and
the override sets local 00:00–23:59 of the start's UTC day in New York — but
an extracted time range is kept, not discarded, so the 00:00/23:59 bounds
survive only when no pattern matches the raw text. -/
theorem C6_allDay :
    allDayDecision ("Event on March 5") (some false) = true ∧
    allDayDecision ("Event 6pm") (some false) = false ∧
    (∀ (ev : ParsedEvent) (ts : Int), jsDateParse ev.startISO = some ts →
      allDayStep ev = { ev with
        allDay := some true
        startISO := toISOString (createDateFromTimezone (minutesToComponents ts).year
          (minutesToComponents ts).month (minutesToComponents ts).day 0 0 (-300))
        endISO := toISOString (createDateFromTimezone (minutesToComponents ts).year
          (minutesToComponents ts).month (minutesToComponents ts).day 23 59 (-300)) }) ∧
    (∀ (raw : String) (cy : Int) (ev : ParsedEvent),
      allDayDecision raw ev.allDay = true → extractLast raw = none →
      fixEvent raw cy ev =
        allDayStep (if hasYearInText raw then descMergeStep raw ev
          else yearStep cy (descMergeStep raw ev))) := by
  refine ⟨by decide, by decide, ?_, ?_⟩
  · intro ev ts hts
    unfold allDayStep
    rw [hts]
  · intro raw cy ev h1 h2
    simp only [fixEvent]
    rw [timeLoop_of_extract_none raw cy _ h2]
    have hAD : (if hasYearInText raw then descMergeStep raw ev
        else yearStep cy (descMergeStep raw ev)).allDay = ev.allDay := by
      split
      · exact (descMergeStep_preserves raw ev).1
      · rw [(yearStep_preserves cy (descMergeStep raw ev)).1]
        exact (descMergeStep_preserves raw ev).1
    rw [hAD, if_pos h1]

/-- Witness for `C6_allDay`: on `picnic all day` (no extractable range) the
pass ends in the all-day override, and the override's output on the event is
the 00:00/23:59 New York rebuild. -/
theorem C6_allDay_witness :
    fixEvent ("picnic all day") 2025 evC6w =
      allDayStep (if hasYearInText ("picnic all day") then descMergeStep ("picnic all day") evC6w
        else yearStep 2025 (descMergeStep ("picnic all day") evC6w)) ∧
    allDayStep evC6w = { evC6w with
      allDay := some true
      startISO := toISOString (createDateFromTimezone
        (minutesToComponents ((jsDateParse ("2025-06-10T20:00:00.000Z")).getD 0)).year
        (minutesToComponents ((jsDateParse ("2025-06-10T20:00:00.000Z")).getD 0)).month
        (minutesToComponents ((jsDateParse ("2025-06-10T20:00:00.000Z")).getD 0)).day 0 0 (-300))
      endISO := toISOString (createDateFromTimezone
        (minutesToComponents ((jsDateParse ("2025-06-10T20:00:00.000Z")).getD 0)).year
        (minutesToComponents ((jsDateParse ("2025-06-10T20:00:00.000Z")).getD 0)).month
        (minutesToComponents ((jsDateParse ("2025-06-10T20:00:00.000Z")).getD 0)).day 23 59 (-300)) } :=
  ⟨C6_allDay.2.2.2 ("picnic all day") 2025 evC6w (by decide) (by decide),
   C6_allDay.2.2.1 evC6w ((jsDateParse ("2025-06-10T20:00:00.000Z")).getD 0) (by decide)⟩

/-- Claim C9 is refuted: saving a title-only edit of a 2025-03-01 midnight
event (New York display timezone) rebuilds both instants through
`createDateFromTimezone`, whose day-only correction lands them on
2025-02-01 — the saved `startISO`/`endISO` are not byte-identical to the
originals. -/
theorem C9_counterexample :
    (handleSave evC9 (-300) ("New title")).map (fun e => (e.title, e.startISO, e.endISO)) =
      some ("New title", "2025-02-01T05:00:00.000Z", "2025-02-01T06:00:00.000Z") ∧
    ("2025-02-01T05:00:00.000Z" : String) ≠ evC9.startISO := by
  refine ⟨by decide, by decide⟩

/-- Rebuilding an instant from its own wall-clock components in a timezone
gives the instant back, provided the candidate's formatting stays in the
same month (the day-only correction then works). -/
theorem createDateFromTimezone_decompose (x off : Int)
    (h1 : (minutesToComponents (x + off + off)).year = (minutesToComponents (x + off)).year)
    (h2 : (minutesToComponents (x + off + off)).month = (minutesToComponents (x + off)).month) :
    createDateFromTimezone (minutesToComponents (x + off)).year
      (minutesToComponents (x + off)).month (minutesToComponents (x + off)).day
      (minutesToComponents (x + off)).hours (minutesToComponents (x + off)).minutes off = x := by
  have hc := compose_decompose (x + off)
  have hsum : daysFromCivil (minutesToComponents (x + off)).year
      (minutesToComponents (x + off)).month (minutesToComponents (x + off)).day * 1440 +
      (minutesToComponents (x + off)).hours * 60 + (minutesToComponents (x + off)).minutes + off =
      x + off + off := by omega
  have hyy : (civilFromDays ((daysFromCivil (minutesToComponents (x + off)).year
      (minutesToComponents (x + off)).month (minutesToComponents (x + off)).day * 1440 +
      (minutesToComponents (x + off)).hours * 60 + (minutesToComponents (x + off)).minutes + off)
      / 1440)).1 = (minutesToComponents (x + off)).year := by
    rw [hsum]
    simpa only [minutesToComponents] using h1
  have hmm : (civilFromDays ((daysFromCivil (minutesToComponents (x + off)).year
      (minutesToComponents (x + off)).month (minutesToComponents (x + off)).day * 1440 +
      (minutesToComponents (x + off)).hours * 60 + (minutesToComponents (x + off)).minutes + off)
      / 1440)).2.1 = (minutesToComponents (x + off)).month := by
    rw [hsum]
    simpa only [minutesToComponents] using h2
  rw [createDateFromTimezone_eq_sameMonth _ _ _ _ _ off hyy hmm]
  omega

/-- Claim C9 as amended: a title-only save leaves the instants byte-identical
whenever rebuilding each instant from its displayed components stays inside
the instant's display-month (so the month-boundary bug is not hit); the
saved event differs from the original only in its title and a normalized
`allDay := some false`. -/
theorem C9_titleEdit (ev : ParsedEvent) (ts te off : Int) (newTitle : String)
    (hs : ev.startISO = toISOString ts) (he : ev.endISO = toISOString te)
    (had : ev.allDay = some false)
    (hr1 : isoYearInRange ts) (hr2 : isoYearInRange te)
    (h1 : (minutesToComponents (ts + off + off)).year = (minutesToComponents (ts + off)).year)
    (h2 : (minutesToComponents (ts + off + off)).month = (minutesToComponents (ts + off)).month)
    (h3 : (minutesToComponents (te + off + off)).year = (minutesToComponents (te + off)).year)
    (h4 : (minutesToComponents (te + off + off)).month = (minutesToComponents (te + off)).month) :
    handleSave ev off newTitle = some { ev with title := newTitle, allDay := some false } := by
  unfold handleSave
  rw [hs, he, jsDateParse_toISOString ts hr1, jsDateParse_toISOString te hr2]
  dsimp only
  rw [if_neg (by simp [had])]
  simp only [getDateComponentsInTimezone]
  rw [createDateFromTimezone_decompose ts off h1 h2,
    createDateFromTimezone_decompose te off h3 h4]

/-- Witness for `C9_titleEdit` on a mid-month event. -/
theorem C9_titleEdit_witness :
    handleSave evC9w (-300) ("Seminar (updated)") =
      some { evC9w with title := "Seminar (updated)", allDay := some false } :=
  C9_titleEdit evC9w ((jsDateParse ("2025-06-10T22:00:00.000Z")).getD 0)
    ((jsDateParse ("2025-06-10T23:30:00.000Z")).getD 0) (-300) ("Seminar (updated)")
    (by decide) (by decide) (by decide) (by decide) (by decide) (by decide) (by decide)
    (by decide) (by decide)

end SnapPlan
